import Mathlib

/-! # Verification of `barretenberg/flavor/flavor.hpp`

A shallow embedding of the flavor base classes of barretenberg
(`ProvingKey_`, `VerificationKey_`, the relation-shape utilities and
`flavor_get_label`) together with theorems about them.

Conventions of the embedding

* `std::vector<T>`, `std::array<T, N>`, `RefVector<T>` and `RefArray<T, N>` are
  `List`s; `v.insert(v.end(), first, last)` is `insert_at_end`.
* `uint64_t`, `uint32_t`, `uint8_t` and `size_t` values are `Nat`s; where the
  source does arithmetic on them the reduction modulo `2 ^ w` is written out.
* A `std::tuple` of relation types is a `List` of relation descriptors and the
  template parameter `Index` is a `Nat` argument.
* Functions and types that `flavor.hpp` includes from other headers
  (`convert_to_bn254_frs`, `to_buffer`, `sha256`, `from_buffer`, the commitment
  key, the evaluation domain) are parameters of the definitions that call
  them.
-/

namespace bb

/-! ## Verification key -/

/-- The type `AggregationObjectPubInputIndices` (declared in
`aggregation_object_type.hpp`): a fixed-size array of `uint32_t` indices. -/
abbrev AggregationObjectPubInputIndices : Type := List Nat

/-- Class `VerificationKey_<PrecomputedCommitments, VerifierCommitmentKey>`
with the members it inherits from `PrecomputedEntitiesBase`.  The base class
`PrecomputedCommitments` is represented by what its `get_all()` returns, the
stored commitments in flavor order. -/
structure VerificationKey_ (Commitment VerifierCommitmentKey : Type) where
  /-- Member `uint64_t circuit_size` of `PrecomputedEntitiesBase`. -/
  circuit_size : Nat
  /-- Member `uint64_t log_circuit_size` of `PrecomputedEntitiesBase`. -/
  log_circuit_size : Nat
  /-- Member `uint64_t num_public_inputs` of `PrecomputedEntitiesBase`. -/
  num_public_inputs : Nat
  /-- Member `CircuitType circuit_type` of `PrecomputedEntitiesBase` (an enumerator). -/
  circuit_type : Nat
  /-- Member `std::shared_ptr<VerifierCommitmentKey> pcs_verification_key`. -/
  pcs_verification_key : Option VerifierCommitmentKey
  /-- Member `bool contains_recursive_proof = false`. -/
  contains_recursive_proof : Bool
  /-- Member `AggregationObjectPubInputIndices recursive_proof_public_input_indices = {}`. -/
  recursive_proof_public_input_indices : AggregationObjectPubInputIndices
  /-- Member `uint64_t pub_inputs_offset = 0`. -/
  pub_inputs_offset : Nat
  /-- Member `PrecomputedCommitments::get_all()`. -/
  get_all : List Commitment

/-- The overloads of `bb::field_conversion::convert_to_bn254_frs`
(`field_conversion.hpp`) that `to_field_elements` calls, one per argument
type. -/
structure convert_to_bn254_frs (FF Commitment : Type) where
  /-- Overload for `uint64_t` (`circuit_size`, `num_public_inputs`,
  `pub_inputs_offset`). -/
  uint64 : Nat → List FF
  /-- Overload for `bool` (`contains_recursive_proof`). -/
  bool : Bool → List FF
  /-- Overload for `AggregationObjectPubInputIndices`. -/
  indices : AggregationObjectPubInputIndices → List FF
  /-- Overload for `Commitment`. -/
  commitment : Commitment → List FF

/-- The call `v.insert(v.end(), first, last)` of `std::vector`: the range is
inserted before the end iterator, after every element already in `v`. -/
def insert_at_end {α : Type} (v range : List α) : List α :=
  v ++ range

/-- Method `VerificationKey_::to_field_elements()`. -/
def VerificationKey_.to_field_elements {FF Commitment VCK : Type}
    (convert : convert_to_bn254_frs FF Commitment)
    (this : VerificationKey_ Commitment VCK) : List FF :=
  let elements : List FF := []
  let circuit_size_elements := convert.uint64 this.circuit_size
  let elements := insert_at_end elements circuit_size_elements
  let num_public_inputs_elements := convert.uint64 this.num_public_inputs
  let elements := insert_at_end elements num_public_inputs_elements
  let pub_inputs_offset_elements := convert.uint64 this.pub_inputs_offset
  let elements := insert_at_end elements pub_inputs_offset_elements
  let contains_recursive_proof_elements := convert.bool this.contains_recursive_proof
  let elements := insert_at_end elements contains_recursive_proof_elements
  let recursive_proof_public_input_indices_elements :=
    convert.indices this.recursive_proof_public_input_indices
  let elements := insert_at_end elements recursive_proof_public_input_indices_elements
  let elements := this.get_all.foldl
    (fun elements comm =>
      let comm_elements := convert.commitment comm
      insert_at_end elements comm_elements)
    elements
  elements

/-- The functions and constants that `VerificationKey_::hash()` takes from
other headers: `sizeof(FF)`, `to_buffer` on a vector of field elements,
`crypto::sha256` and `from_buffer<uint256_t>`.  Bytes are `Nat`s. -/
structure HashEnv (FF : Type) where
  /-- The constant `sizeof(FF)`. -/
  sizeof_FF : Nat
  /-- The size of a complete object type is at least one byte. -/
  sizeof_FF_pos : 0 < sizeof_FF
  /-- The function `to_buffer(std::vector<FF>)`. -/
  to_buffer : List FF → List Nat
  /-- The function `crypto::sha256`. -/
  sha256 : List Nat → List Nat
  /-- The function `from_buffer<uint256_t>`. -/
  from_buffer : List Nat → Nat

/-- The constructor `std::vector<uint8_t>(n)`: `n` value-initialised (zero)
bytes. -/
def zero_filled_vector (n : Nat) : List Nat :=
  List.replicate n 0

/-- The byte vector `to_hash` at the point where `hash()` passes it to
`crypto::sha256`: it is constructed with `field_elements.size() * sizeof(FF)`
elements and the lambda `convert_and_insert` then inserts the serialised
field elements at its end.  (The product cannot wrap: the vector
`field_elements` itself occupies that many bytes of memory.) -/
def VerificationKey_.hash_to_hash {FF Commitment VCK : Type}
    (env : HashEnv FF) (convert : convert_to_bn254_frs FF Commitment)
    (this : VerificationKey_ Commitment VCK) : List Nat :=
  let field_elements := this.to_field_elements convert
  let to_hash := zero_filled_vector (field_elements.length * env.sizeof_FF)
  let convert_and_insert := fun (to_hash : List Nat) (vector : List FF) =>
    let buffer := env.to_buffer vector
    insert_at_end to_hash buffer
  let to_hash := convert_and_insert to_hash field_elements
  to_hash

/-- Method `VerificationKey_::hash()`. -/
def VerificationKey_.hash {FF Commitment VCK : Type}
    (env : HashEnv FF) (convert : convert_to_bn254_frs FF Commitment)
    (this : VerificationKey_ Commitment VCK) : Nat :=
  env.from_buffer (env.sha256 (this.hash_to_hash env convert))

/-! ### A concrete key

A small verification key and concrete stand-ins for the external conversion
and serialisation functions, used to evaluate the definitions above. -/

/-- Field elements are numbers, a commitment is a pair of coordinates; each
scalar converts to one element, each index to one element and a commitment to
its two coordinates. -/
def sample_convert : convert_to_bn254_frs Nat (Nat × Nat) where
  uint64 := fun v => [v]
  bool := fun b => [if b then 1 else 0]
  indices := fun t => t
  commitment := fun c => [c.1, c.2]

/-- A key with circuit size 4, one public input and one commitment. -/
def sample_vk : VerificationKey_ (Nat × Nat) Unit where
  circuit_size := 4
  log_circuit_size := 2
  num_public_inputs := 1
  circuit_type := 0
  pcs_verification_key := none
  contains_recursive_proof := false
  recursive_proof_public_input_indices := [0, 0]
  pub_inputs_offset := 0
  get_all := [(7, 9)]

/-- The 32 bytes of a number below `2 ^ 256`, most significant byte first. -/
def sample_bytes32 (x : Nat) : List Nat :=
  (List.range 32).map (fun i => x / 256 ^ (31 - i) % 256)

/-- An environment with 32-byte field elements that `to_buffer` writes one
after the other, most significant byte first, for a given digest function and
a given `from_buffer`. -/
def sample_env (sha256 : List Nat → List Nat) (from_buffer : List Nat → Nat) :
    HashEnv Nat where
  sizeof_FF := 32
  sizeof_FF_pos := by decide
  to_buffer := fun v => v.flatMap sample_bytes32
  sha256 := sha256
  from_buffer := from_buffer

/-! ## Relation-shape derivation -/

/-- What `flavor.hpp` reads from a relation type, an element of the `std::tuple`
of relations of a flavor: its static constants, and the container types it
declares (a container type is a value of `Shape`). -/
structure RelationDescriptor (Shape : Type) where
  /-- The constant `RELATION_LENGTH`, the partial length of the relation. -/
  RELATION_LENGTH : Nat
  /-- The constant `TOTAL_RELATION_LENGTH`. -/
  TOTAL_RELATION_LENGTH : Nat
  /-- The array `SUBRELATION_PARTIAL_LENGTHS`, one entry per subrelation. -/
  SUBRELATION_PARTIAL_LENGTHS : List Nat
  /-- The member template `ProtogalaxyTupleOfUnivariatesOverSubrelations<NUM_INSTANCES>`. -/
  ProtogalaxyTupleOfUnivariatesOverSubrelations : Nat → Shape
  /-- The member template
  `OptimisedProtogalaxyTupleOfUnivariatesOverSubrelations<NUM_INSTANCES>`. -/
  OptimisedProtogalaxyTupleOfUnivariatesOverSubrelations : Nat → Shape
  /-- The member type `SumcheckTupleOfUnivariatesOverSubrelations`. -/
  SumcheckTupleOfUnivariatesOverSubrelations : Shape
  /-- The member type `SumcheckArrayOfValuesOverSubrelations`. -/
  SumcheckArrayOfValuesOverSubrelations : Shape

/-- Function template `compute_max_partial_relation_length<Tuple, Index>()`;
the source's default is `Index = 0`. -/
def compute_max_partial_relation_length {Shape : Type}
    (Tuple : List (RelationDescriptor Shape)) (Index : Nat) : Nat :=
  if h : Index ≥ Tuple.length then
    0
  else
    let current_length := (Tuple.get ⟨Index, Nat.lt_of_not_ge h⟩).RELATION_LENGTH
    let next_length := compute_max_partial_relation_length Tuple (Index + 1)
    if current_length > next_length then current_length else next_length
termination_by Tuple.length - Index

/-- Function template `compute_max_total_relation_length<Tuple, Index>()`;
the source's default is `Index = 0`. -/
def compute_max_total_relation_length {Shape : Type}
    (Tuple : List (RelationDescriptor Shape)) (Index : Nat) : Nat :=
  if h : Index ≥ Tuple.length then
    0
  else
    let current_length := (Tuple.get ⟨Index, Nat.lt_of_not_ge h⟩).TOTAL_RELATION_LENGTH
    let next_length := compute_max_total_relation_length Tuple (Index + 1)
    if current_length > next_length then current_length else next_length
termination_by Tuple.length - Index

/-- Function template `compute_number_of_subrelations<Tuple, Index>()`; the
source's default is `Index = 0`.  (The sum of the sizes of arrays that exist
in the program does not reach `2 ^ 64`, so the `size_t` addition is exact.) -/
def compute_number_of_subrelations {Shape : Type}
    (Tuple : List (RelationDescriptor Shape)) (Index : Nat) : Nat :=
  if h : Index ≥ Tuple.length then
    0
  else
    let subrelations_in_relation :=
      (Tuple.get ⟨Index, Nat.lt_of_not_ge h⟩).SUBRELATION_PARTIAL_LENGTHS.length
    subrelations_in_relation + compute_number_of_subrelations Tuple (Index + 1)
termination_by Tuple.length - Index

/-- A relation descriptor with the given lengths whose container types are
named by numbers; used for concrete evaluations. -/
def sample_relation (partial_length total_length : Nat) (subrelations : List Nat) :
    RelationDescriptor Nat where
  RELATION_LENGTH := partial_length
  TOTAL_RELATION_LENGTH := total_length
  SUBRELATION_PARTIAL_LENGTHS := subrelations
  ProtogalaxyTupleOfUnivariatesOverSubrelations := fun n => n * partial_length
  OptimisedProtogalaxyTupleOfUnivariatesOverSubrelations := fun n => n * partial_length + 1
  SumcheckTupleOfUnivariatesOverSubrelations := partial_length
  SumcheckArrayOfValuesOverSubrelations := subrelations.length

/-! ## Entity collections -/

/-- An lvalue of type `α`: the identity (address) of an object together with
the value stored in it.  Two references denote the same object exactly when
their addresses are equal. -/
structure Ref (α : Type) where
  /-- The address of the object (what `&x` evaluates to). -/
  addr : Nat
  /-- The value held by the object. -/
  val : α

/-- The getters of an entity class that `flavor.hpp` calls.  The containers
returned by `get_all`, `get_unshifted` and `get_shifted` hold references to the
stored values. -/
structure Entities (α : Type) where
  /-- The getter `get_labels()`. -/
  get_labels : List String
  /-- The getter `get_all()`. -/
  get_all : List (Ref α)
  /-- The getter `get_unshifted()`. -/
  get_unshifted : List (Ref α)
  /-- The getter `get_shifted()`. -/
  get_shifted : List (Ref α)

/-- Modelled from the spec: `concatenate` (declared in `ref_vector.hpp` and
`std_vector.hpp`, which are not part of the sources at hand) returns the
ordered concatenation of its arguments, first argument first. -/
def concatenate {α : Type} (a b : List α) : List α :=
  a ++ b

/-- Modelled from the spec: `zip_view` (declared in `zip_view.hpp`, which is
not part of the sources at hand) iterates over two order-aligned sequences in
lockstep, pairing the entries at equal indices. -/
def zip_view {α β : Type} (a : List α) (b : List β) : List (α × β) :=
  List.zip a b

/-- The range-`for` loop of `flavor_get_label` over the zipped pairs: at the
first pair whose data has the address of `element` the label is returned, and
when the range is exhausted the function returns `"(unknown label)"`. -/
def flavor_get_label_loop {α : Type} (element : Ref α) : List (String × Ref α) → String
  | [] => "(unknown label)"
  | (label, data) :: rest =>
    if data.addr = element.addr then label else flavor_get_label_loop element rest

/-- Function template `flavor_get_label(container, element)`. -/
def flavor_get_label {α : Type} (container : Entities α) (element : Ref α) : String :=
  flavor_get_label_loop element (zip_view container.get_labels container.get_all)

/-- Function `get_unshifted_then_shifted(all_entities)`. -/
def get_unshifted_then_shifted {α : Type} (all_entities : Entities α) : List (Ref α) :=
  concatenate all_entities.get_unshifted all_entities.get_shifted

/-- An entity collection with three stored values, two of them equal, at
addresses 100, 108 and 116. -/
def sample_entities : Entities Nat where
  get_labels := ["q_m", "q_l", "w_l"]
  get_all := [⟨100, 5⟩, ⟨108, 5⟩, ⟨116, 9⟩]
  get_unshifted := [⟨100, 5⟩, ⟨108, 5⟩, ⟨116, 9⟩]
  get_shifted := [⟨116, 9⟩]

/-! ## Proving key -/

/-- Modelled from the spec: `numeric::get_msb` (declared in the `numeric`
headers, which are not part of the sources at hand) returns
`floor(log2(n))`, the index of the most significant set bit; the count of
halvings that bring `n` down to 1.  The first argument bounds the number of
halvings. -/
def get_msb_loop : Nat → Nat → Nat
  | 0, _ => 0
  | fuel + 1, n => if n ≤ 1 then 0 else get_msb_loop fuel (n / 2) + 1

/-- Modelled from the spec: `numeric::get_msb(n)` is `floor(log2(n))`. -/
def get_msb (n : Nat) : Nat :=
  get_msb_loop n n

/-- Class `ProvingKey_<FF, CommitmentKey_>`; `EvaluationDomain` stands for
`bb::EvaluationDomain<FF>`. -/
structure ProvingKey_ (FF CommitmentKey_ EvaluationDomain : Type) where
  /-- Member `size_t circuit_size`. -/
  circuit_size : Nat
  /-- Member `bool contains_recursive_proof`. -/
  contains_recursive_proof : Bool
  /-- Member `AggregationObjectPubInputIndices recursive_proof_public_input_indices`. -/
  recursive_proof_public_input_indices : AggregationObjectPubInputIndices
  /-- Member `bb::EvaluationDomain<FF> evaluation_domain`. -/
  evaluation_domain : EvaluationDomain
  /-- Member `std::shared_ptr<CommitmentKey_> commitment_key`. -/
  commitment_key : Option CommitmentKey_
  /-- Member `size_t num_public_inputs`. -/
  num_public_inputs : Nat
  /-- Member `size_t log_circuit_size`. -/
  log_circuit_size : Nat
  /-- Member `size_t pub_inputs_offset = 0`. -/
  pub_inputs_offset : Nat
  /-- Member `std::vector<FF> public_inputs`. -/
  public_inputs : List FF

/-- What the constructors of the proving keys take from other headers and from
the platform: the width of `size_t`, the constructor `CommitmentKey_(n)`, and
the default and the two-argument constructor of `bb::EvaluationDomain<FF>`. -/
structure KeyEnv (CommitmentKey_ EvaluationDomain : Type) where
  /-- The number of bits of `size_t`. -/
  size_bits : Nat
  /-- The constructor `CommitmentKey_(num_points)`. -/
  make_commitment_key : Nat → CommitmentKey_
  /-- The default constructor `EvaluationDomain()`. -/
  default_evaluation_domain : EvaluationDomain
  /-- The constructor `EvaluationDomain(domain_size, target_generator_size)`. -/
  make_evaluation_domain : Nat → Nat → EvaluationDomain

/-- The members of a proving key that have no default member initialiser and
that the two-argument constructor does not assign: they keep whatever value
the storage of the object held. -/
structure Indeterminate where
  /-- The initial content of `contains_recursive_proof`. -/
  contains_recursive_proof : Bool
  /-- The initial content of `recursive_proof_public_input_indices`. -/
  recursive_proof_public_input_indices : AggregationObjectPubInputIndices

/-- The state of a `ProvingKey_` object when the body of the two-argument
constructor starts: `pub_inputs_offset` has its default member initialiser,
class-type members are default-constructed, and scalar members without an
initialiser hold indeterminate values (the members that the constructor body
assigns are shown as 0 before the assignment). -/
def ProvingKey_.member_init {FF CK ED : Type} (env : KeyEnv CK ED) (mem : Indeterminate) :
    ProvingKey_ FF CK ED where
  circuit_size := 0
  contains_recursive_proof := mem.contains_recursive_proof
  recursive_proof_public_input_indices := mem.recursive_proof_public_input_indices
  evaluation_domain := env.default_evaluation_domain
  commitment_key := none
  num_public_inputs := 0
  log_circuit_size := 0
  pub_inputs_offset := 0
  public_inputs := []

/-- The constructor `ProvingKey_(circuit_size, num_public_inputs)`.  The
arguments are `size_t` values, numbers below `2 ^ env.size_bits`. -/
def ProvingKey_.construct {FF CK ED : Type} (env : KeyEnv CK ED) (mem : Indeterminate)
    (circuit_size num_public_inputs : Nat) : ProvingKey_ FF CK ED :=
  let this : ProvingKey_ FF CK ED := ProvingKey_.member_init env mem
  let this := { this with
    commitment_key := some (env.make_commitment_key ((circuit_size + 1) % 2 ^ env.size_bits)) }
  let this := { this with
    evaluation_domain := env.make_evaluation_domain circuit_size circuit_size }
  let this := { this with circuit_size := circuit_size }
  let this := { this with log_circuit_size := get_msb circuit_size }
  let this := { this with num_public_inputs := num_public_inputs }
  this

/-- A key environment for a 64-bit platform in which a commitment key is its
capacity and an evaluation domain is its pair of constructor arguments. -/
def sample_key_env : KeyEnv Nat (Nat × Nat) where
  size_bits := 64
  make_commitment_key := fun n => n
  default_evaluation_domain := (0, 0)
  make_evaluation_domain := fun size target => (size, target)

/-! ## Proving key with precomputed and witness polynomials -/

/-- Modelled from the spec: the type `Polynomial` of the stored data (declared
in the polynomial headers, which are not part of the sources at hand).  The
constructor `Polynomial(n)` allocates a polynomial of exactly `n` elements. -/
structure PolynomialEnv (Polynomial : Type) where
  /-- The constructor `Polynomial(size)`. -/
  make_polynomial : Nat → Polynomial
  /-- The number of elements of a polynomial. -/
  size : Polynomial → Nat
  /-- A polynomial constructed with `Polynomial(n)` has `n` elements. -/
  size_make_polynomial : ∀ n, size (make_polynomial n) = n

/-- The effect of an assignment through the reference `target` on what the
reference `r` reads: the object at the address of `target` holds `v`
afterwards, every other object is unchanged. -/
def assign_through {α : Type} (target : Ref α) (v : α) (r : Ref α) : Ref α :=
  if r.addr = target.addr then ⟨r.addr, v⟩ else r

/-- The assignment `target = v` through a reference to a stored value of an
entity class: every getter of the class sees the new value of that object. -/
def Entities.assign {α : Type} (e : Entities α) (target : Ref α) (v : α) : Entities α where
  get_labels := e.get_labels
  get_all := e.get_all.map (assign_through target v)
  get_unshifted := e.get_unshifted.map (assign_through target v)
  get_shifted := e.get_shifted.map (assign_through target v)

/-- The loop `for (auto& poly : Base::get_all()) { poly = Polynomial(circuit_size); }`
of the constructor of `ProvingKeyAvm_`: the range is the container that
`get_all()` returns when the loop starts, and each iteration assigns through
one of its references. -/
def allocate_polynomials {Polynomial : Type} (poly_env : PolynomialEnv Polynomial)
    (base : Entities Polynomial) (circuit_size : Nat) : Entities Polynomial :=
  base.get_all.foldl
    (fun base poly => base.assign poly (poly_env.make_polynomial circuit_size))
    base

/-- Class `ProvingKeyAvm_<PrecomputedPolynomials, WitnessPolynomials, CommitmentKey_>`.
The two base classes are entity classes whose data type is `Polynomial`.  The
members `log_circuit_size` and `num_public_inputs`, which the constructor
assigns through `this->` and the class does not declare, are members of a
base class. -/
structure ProvingKeyAvm_ (Polynomial FF CommitmentKey_ EvaluationDomain : Type) where
  /-- The base class subobject `PrecomputedPolynomials`. -/
  PrecomputedPolynomials : Entities Polynomial
  /-- The base class subobject `WitnessPolynomials`. -/
  WitnessPolynomials : Entities Polynomial
  /-- Member `log_circuit_size` of a base class. -/
  log_circuit_size : Nat
  /-- Member `num_public_inputs` of a base class. -/
  num_public_inputs : Nat
  /-- Member `size_t circuit_size`. -/
  circuit_size : Nat
  /-- Member `bool contains_recursive_proof`. -/
  contains_recursive_proof : Bool
  /-- Member `AggregationObjectPubInputIndices recursive_proof_public_input_indices`. -/
  recursive_proof_public_input_indices : AggregationObjectPubInputIndices
  /-- Member `bb::EvaluationDomain<FF> evaluation_domain`. -/
  evaluation_domain : EvaluationDomain
  /-- Member `std::shared_ptr<CommitmentKey_> commitment_key`. -/
  commitment_key : Option CommitmentKey_
  /-- Member `size_t pub_inputs_offset = 0`. -/
  pub_inputs_offset : Nat
  /-- Member `std::vector<FF> public_inputs`. -/
  public_inputs : List FF

/-- Method `ProvingKeyAvm_::get_labels()`. -/
def ProvingKeyAvm_.get_labels {P FF CK ED : Type} (this : ProvingKeyAvm_ P FF CK ED) :
    List String :=
  concatenate this.PrecomputedPolynomials.get_labels this.WitnessPolynomials.get_labels

/-- Method `ProvingKeyAvm_::get_witness_polynomials()`. -/
def ProvingKeyAvm_.get_witness_polynomials {P FF CK ED : Type}
    (this : ProvingKeyAvm_ P FF CK ED) : List (Ref P) :=
  this.WitnessPolynomials.get_all

/-- Method `ProvingKeyAvm_::get_precomputed_polynomials()`. -/
def ProvingKeyAvm_.get_precomputed_polynomials {P FF CK ED : Type}
    (this : ProvingKeyAvm_ P FF CK ED) : List (Ref P) :=
  this.PrecomputedPolynomials.get_all

/-- Method `ProvingKeyAvm_::get_all()`. -/
def ProvingKeyAvm_.get_all {P FF CK ED : Type} (this : ProvingKeyAvm_ P FF CK ED) :
    List (Ref P) :=
  concatenate this.get_precomputed_polynomials this.get_witness_polynomials

/-- The state of a `ProvingKeyAvm_` object when the body of the two-argument
constructor starts: the base class subobjects are default-constructed
(`precomputed` and `witness`), `pub_inputs_offset` has its default member
initialiser, class-type members are default-constructed, and scalar members
without an initialiser hold indeterminate values (the members that the
constructor body assigns are shown as 0 before the assignment). -/
def ProvingKeyAvm_.member_init {P FF CK ED : Type} (env : KeyEnv CK ED) (mem : Indeterminate)
    (precomputed witness : Entities P) : ProvingKeyAvm_ P FF CK ED where
  PrecomputedPolynomials := precomputed
  WitnessPolynomials := witness
  log_circuit_size := 0
  num_public_inputs := 0
  circuit_size := 0
  contains_recursive_proof := mem.contains_recursive_proof
  recursive_proof_public_input_indices := mem.recursive_proof_public_input_indices
  evaluation_domain := env.default_evaluation_domain
  commitment_key := none
  pub_inputs_offset := 0
  public_inputs := []

/-- The constructor `ProvingKeyAvm_(circuit_size, num_public_inputs)`.  The
arguments are `size_t` values, numbers below `2 ^ env.size_bits`. -/
def ProvingKeyAvm_.construct {P FF CK ED : Type} (env : KeyEnv CK ED)
    (poly_env : PolynomialEnv P) (mem : Indeterminate) (precomputed witness : Entities P)
    (circuit_size num_public_inputs : Nat) : ProvingKeyAvm_ P FF CK ED :=
  let this : ProvingKeyAvm_ P FF CK ED := ProvingKeyAvm_.member_init env mem precomputed witness
  let this := { this with
    commitment_key := some (env.make_commitment_key ((circuit_size + 1) % 2 ^ env.size_bits)) }
  let this := { this with
    evaluation_domain := env.make_evaluation_domain circuit_size circuit_size }
  let this := { this with circuit_size := circuit_size }
  let this := { this with log_circuit_size := get_msb circuit_size }
  let this := { this with num_public_inputs := num_public_inputs }
  let this := { this with
    PrecomputedPolynomials :=
      allocate_polynomials poly_env this.PrecomputedPolynomials circuit_size }
  let this := { this with
    WitnessPolynomials := allocate_polynomials poly_env this.WitnessPolynomials circuit_size }
  this

/-- Polynomials as lists of coefficients: `Polynomial(n)` is `n` zero
coefficients. -/
def sample_polynomial_env : PolynomialEnv (List Nat) where
  make_polynomial := fun n => List.replicate n 0
  size := List.length
  size_make_polynomial := fun n => List.length_replicate n 0

/-- A default-constructed precomputed entity class with two empty
polynomials. -/
def sample_precomputed : Entities (List Nat) where
  get_labels := ["q_m", "q_c"]
  get_all := [⟨100, []⟩, ⟨124, []⟩]
  get_unshifted := [⟨100, []⟩, ⟨124, []⟩]
  get_shifted := []

/-- A default-constructed witness entity class with three empty
polynomials. -/
def sample_witness : Entities (List Nat) where
  get_labels := ["w_l", "w_r", "w_o"]
  get_all := [⟨200, []⟩, ⟨224, []⟩, ⟨248, []⟩]
  get_unshifted := [⟨200, []⟩, ⟨224, []⟩, ⟨248, []⟩]
  get_shifted := [⟨200, []⟩]

/-! ## Construction of the verification key, and outcomes of construction -/

/-- The state of a `VerificationKey_` object when the body of the two-argument
constructor starts.  The default member initialisers give
`contains_recursive_proof = false`, an index table of
`AGGREGATION_OBJECT_SIZE` zeros (`= {}`) and `pub_inputs_offset = 0`; the
shared pointer is null; the base class `PrecomputedCommitments` is
default-constructed, `base_commitments` being its commitments; `circuit_type`
has no initialiser and holds an indeterminate value (the members that the
constructor body assigns are shown as 0 before the assignment). -/
def VerificationKey_.member_init {Commitment VCK : Type} (AGGREGATION_OBJECT_SIZE : Nat)
    (base_commitments : List Commitment) (circuit_type : Nat) :
    VerificationKey_ Commitment VCK where
  circuit_size := 0
  log_circuit_size := 0
  num_public_inputs := 0
  circuit_type := circuit_type
  pcs_verification_key := none
  contains_recursive_proof := false
  recursive_proof_public_input_indices := List.replicate AGGREGATION_OBJECT_SIZE 0
  pub_inputs_offset := 0
  get_all := base_commitments

/-- The constructor `VerificationKey_(circuit_size, num_public_inputs)`.  The
arguments are `size_t` values; they fit the `uint64_t` members they are
assigned to. -/
def VerificationKey_.construct {Commitment VCK : Type} (AGGREGATION_OBJECT_SIZE : Nat)
    (base_commitments : List Commitment) (circuit_type : Nat)
    (circuit_size num_public_inputs : Nat) : VerificationKey_ Commitment VCK :=
  let this : VerificationKey_ Commitment VCK :=
    VerificationKey_.member_init AGGREGATION_OBJECT_SIZE base_commitments circuit_type
  let this := { this with circuit_size := circuit_size }
  let this := { this with log_circuit_size := get_msb circuit_size }
  let this := { this with num_public_inputs := num_public_inputs }
  this

/-- How a constructor call ends: it returns the constructed object, or it
exits with a precondition violation (a failed assertion or an exception). -/
inductive ConstructionResult (Key : Type) where
  /-- The constructor returns; `key` is the object. -/
  | returned (key : Key) : ConstructionResult Key
  /-- The constructor exits with a precondition violation. -/
  | precondition_violation : ConstructionResult Key

/-- Whether the constructors that the proving keys call reject their
arguments; they are declared in other headers. -/
structure ExternalChecks where
  /-- Whether `CommitmentKey_(num_points)` exits with a precondition
  violation. -/
  commitment_key_rejects : Nat → Bool
  /-- Whether `EvaluationDomain(domain_size, target_generator_size)` exits with
  a precondition violation. -/
  evaluation_domain_rejects : Nat → Nat → Bool

/-- The outcome of `VerificationKey_(circuit_size, num_public_inputs)`: the body
is three assignments, without an assertion, a `throw` or a call to a
constructor, so the call returns for all arguments. -/
def VerificationKey_.construct_result {Commitment VCK : Type} (AGGREGATION_OBJECT_SIZE : Nat)
    (base_commitments : List Commitment) (circuit_type : Nat)
    (circuit_size num_public_inputs : Nat) :
    ConstructionResult (VerificationKey_ Commitment VCK) :=
  ConstructionResult.returned
    (VerificationKey_.construct AGGREGATION_OBJECT_SIZE base_commitments circuit_type
      circuit_size num_public_inputs)

/-- The outcome of `ProvingKey_(circuit_size, num_public_inputs)`: the body has
no assertion and no `throw` of its own; it calls the constructor of the
commitment key and then the constructor of the evaluation domain, and returns
when both return. -/
def ProvingKey_.construct_result {FF CK ED : Type} (env : KeyEnv CK ED)
    (checks : ExternalChecks) (mem : Indeterminate) (circuit_size num_public_inputs : Nat) :
    ConstructionResult (ProvingKey_ FF CK ED) :=
  if checks.commitment_key_rejects ((circuit_size + 1) % 2 ^ env.size_bits) then
    ConstructionResult.precondition_violation
  else if checks.evaluation_domain_rejects circuit_size circuit_size then
    ConstructionResult.precondition_violation
  else
    ConstructionResult.returned (ProvingKey_.construct env mem circuit_size num_public_inputs)

/-- The outcome of `ProvingKeyAvm_(circuit_size, num_public_inputs)`: as for
`ProvingKey_`, the body has no assertion and no `throw` of its own. -/
def ProvingKeyAvm_.construct_result {P FF CK ED : Type} (env : KeyEnv CK ED)
    (checks : ExternalChecks) (poly_env : PolynomialEnv P) (mem : Indeterminate)
    (precomputed witness : Entities P) (circuit_size num_public_inputs : Nat) :
    ConstructionResult (ProvingKeyAvm_ P FF CK ED) :=
  if checks.commitment_key_rejects ((circuit_size + 1) % 2 ^ env.size_bits) then
    ConstructionResult.precondition_violation
  else if checks.evaluation_domain_rejects circuit_size circuit_size then
    ConstructionResult.precondition_violation
  else
    ConstructionResult.returned
      (ProvingKeyAvm_.construct env poly_env mem precomputed witness circuit_size
        num_public_inputs)

/-- External constructors that accept every argument. -/
def sample_no_checks : ExternalChecks where
  commitment_key_rejects := fun _ => false
  evaluation_domain_rejects := fun _ _ => false

/-! ## Containers shaped by the relations -/

/-- Function template
`create_protogalaxy_tuple_of_tuples_of_univariates<Tuple, NUM_INSTANCES, optimised, Index>()`;
the source's defaults are `optimised = false` and `Index = 0`.  The returned
`std::tuple` is represented by the list of the types of its entries, and
`std::tuple_cat` by the concatenation of such lists. -/
def create_protogalaxy_tuple_of_tuples_of_univariates {Shape : Type}
    (Tuple : List (RelationDescriptor Shape)) (NUM_INSTANCES : Nat) (optimised : Bool)
    (Index : Nat) : List Shape :=
  if h : Index ≥ Tuple.length then
    []
  else
    let UnivariateTuple :=
      if optimised then
        (Tuple.get ⟨Index, Nat.lt_of_not_ge h⟩).OptimisedProtogalaxyTupleOfUnivariatesOverSubrelations
          NUM_INSTANCES
      else
        (Tuple.get ⟨Index, Nat.lt_of_not_ge h⟩).ProtogalaxyTupleOfUnivariatesOverSubrelations
          NUM_INSTANCES
    [UnivariateTuple]
      ++ create_protogalaxy_tuple_of_tuples_of_univariates Tuple NUM_INSTANCES optimised
          (Index + 1)
termination_by Tuple.length - Index

/-- Function template `create_sumcheck_tuple_of_tuples_of_univariates<Tuple, Index>()`;
the source's default is `Index = 0`. -/
def create_sumcheck_tuple_of_tuples_of_univariates {Shape : Type}
    (Tuple : List (RelationDescriptor Shape)) (Index : Nat) : List Shape :=
  if h : Index ≥ Tuple.length then
    []
  else
    let UnivariateTuple :=
      (Tuple.get ⟨Index, Nat.lt_of_not_ge h⟩).SumcheckTupleOfUnivariatesOverSubrelations
    [UnivariateTuple] ++ create_sumcheck_tuple_of_tuples_of_univariates Tuple (Index + 1)
termination_by Tuple.length - Index

/-- Function template `create_tuple_of_arrays_of_values<Tuple, Index>()`; the
source's default is `Index = 0`. -/
def create_tuple_of_arrays_of_values {Shape : Type}
    (Tuple : List (RelationDescriptor Shape)) (Index : Nat) : List Shape :=
  if h : Index ≥ Tuple.length then
    []
  else
    let Values := (Tuple.get ⟨Index, Nat.lt_of_not_ge h⟩).SumcheckArrayOfValuesOverSubrelations
    [Values] ++ create_tuple_of_arrays_of_values Tuple (Index + 1)
termination_by Tuple.length - Index

/-! ## Capability classification -/

/-- The circuit builder types that the recursive flavor templates are
instantiated with in `flavor.hpp`, and any other type. -/
inductive BuilderType where
  /-- The type `UltraCircuitBuilder`. -/
  | UltraCircuitBuilder : BuilderType
  /-- The type `MegaCircuitBuilder`. -/
  | MegaCircuitBuilder : BuilderType
  /-- The type `CircuitSimulatorBN254`. -/
  | CircuitSimulatorBN254 : BuilderType
  /-- Any other type given as the builder argument. -/
  | other_builder (id : Nat) : BuilderType
  deriving DecidableEq

/-- The types that the capability concepts are asked about: the flavor classes
and class templates that `flavor.hpp` forward-declares, and any other type. -/
inductive FlavorType where
  /-- The class `bb::plonk::flavor::Standard`. -/
  | plonk_flavor_Standard : FlavorType
  /-- The class `bb::plonk::flavor::Ultra`. -/
  | plonk_flavor_Ultra : FlavorType
  /-- The class `bb::UltraFlavor`. -/
  | UltraFlavor : FlavorType
  /-- The class `bb::ECCVMFlavor`. -/
  | ECCVMFlavor : FlavorType
  /-- The class `bb::UltraKeccakFlavor`. -/
  | UltraKeccakFlavor : FlavorType
  /-- The class `bb::MegaFlavor`. -/
  | MegaFlavor : FlavorType
  /-- The class `bb::TranslatorFlavor`. -/
  | TranslatorFlavor : FlavorType
  /-- The class `bb::UltraRecursiveFlavor_<BuilderType>`. -/
  | UltraRecursiveFlavor_ (builder : BuilderType) : FlavorType
  /-- The class `bb::MegaRecursiveFlavor_<BuilderType>`. -/
  | MegaRecursiveFlavor_ (builder : BuilderType) : FlavorType
  /-- The class `bb::TranslatorRecursiveFlavor_<BuilderType>`. -/
  | TranslatorRecursiveFlavor_ (builder : BuilderType) : FlavorType
  /-- The class `bb::ECCVMRecursiveFlavor_<BuilderType>`. -/
  | ECCVMRecursiveFlavor_ (builder : BuilderType) : FlavorType
  /-- Any other type. -/
  | other (id : Nat) : FlavorType
  deriving DecidableEq

/-- The concept `std::same_as<T, U>`: the two types are the same type. -/
def same_as (T U : FlavorType) : Bool :=
  decide (T = U)

/-- Modelled from the spec: the concept `IsAnyOf<T, U...>` (declared in another
header, documented in `flavor.hpp` as the test whether a type `T` lies in a
list of types `U...`) is the disjunction of `std::same_as<T, U>` over the
types `U` of the list. -/
def IsAnyOf (T : FlavorType) : List FlavorType → Bool
  | [] => false
  | U :: rest => same_as T U || IsAnyOf T rest

/-- Concept `IsPlonkFlavor<T>`. -/
def IsPlonkFlavor (T : FlavorType) : Bool :=
  IsAnyOf T [FlavorType.plonk_flavor_Standard, FlavorType.plonk_flavor_Ultra]

/-- Concept `IsUltraPlonkFlavor<T>`. -/
def IsUltraPlonkFlavor (T : FlavorType) : Bool :=
  IsAnyOf T [FlavorType.plonk_flavor_Ultra, FlavorType.UltraKeccakFlavor]

/-- Concept `IsUltraPlonkOrHonk<T>`. -/
def IsUltraPlonkOrHonk (T : FlavorType) : Bool :=
  IsAnyOf T [FlavorType.plonk_flavor_Ultra, FlavorType.UltraFlavor,
    FlavorType.UltraKeccakFlavor, FlavorType.MegaFlavor]

/-- Concept `IsHonkFlavor<T>`. -/
def IsHonkFlavor (T : FlavorType) : Bool :=
  IsAnyOf T [FlavorType.UltraFlavor, FlavorType.UltraKeccakFlavor, FlavorType.MegaFlavor]

/-- Concept `IsUltraFlavor<T>`. -/
def IsUltraFlavor (T : FlavorType) : Bool :=
  IsAnyOf T [FlavorType.UltraFlavor, FlavorType.UltraKeccakFlavor, FlavorType.MegaFlavor]

/-- Concept `IsGoblinFlavor<T>`. -/
def IsGoblinFlavor (T : FlavorType) : Bool :=
  IsAnyOf T [FlavorType.MegaFlavor,
    FlavorType.MegaRecursiveFlavor_ BuilderType.UltraCircuitBuilder,
    FlavorType.MegaRecursiveFlavor_ BuilderType.MegaCircuitBuilder,
    FlavorType.MegaRecursiveFlavor_ BuilderType.CircuitSimulatorBN254]

/-- Concept `IsRecursiveFlavor<T>`. -/
def IsRecursiveFlavor (T : FlavorType) : Bool :=
  IsAnyOf T [FlavorType.UltraRecursiveFlavor_ BuilderType.UltraCircuitBuilder,
    FlavorType.UltraRecursiveFlavor_ BuilderType.MegaCircuitBuilder,
    FlavorType.UltraRecursiveFlavor_ BuilderType.CircuitSimulatorBN254,
    FlavorType.MegaRecursiveFlavor_ BuilderType.UltraCircuitBuilder,
    FlavorType.MegaRecursiveFlavor_ BuilderType.MegaCircuitBuilder,
    FlavorType.MegaRecursiveFlavor_ BuilderType.CircuitSimulatorBN254,
    FlavorType.TranslatorRecursiveFlavor_ BuilderType.UltraCircuitBuilder,
    FlavorType.TranslatorRecursiveFlavor_ BuilderType.MegaCircuitBuilder,
    FlavorType.TranslatorRecursiveFlavor_ BuilderType.CircuitSimulatorBN254,
    FlavorType.ECCVMRecursiveFlavor_ BuilderType.UltraCircuitBuilder]

/-- Concept `IsECCVMRecursiveFlavor<T>`. -/
def IsECCVMRecursiveFlavor (T : FlavorType) : Bool :=
  IsAnyOf T [FlavorType.ECCVMRecursiveFlavor_ BuilderType.UltraCircuitBuilder]

/-- Concept `IsGrumpkinFlavor<T>`. -/
def IsGrumpkinFlavor (T : FlavorType) : Bool :=
  IsAnyOf T [FlavorType.ECCVMFlavor]

/-- Concept `IsFoldingFlavor<T>`. -/
def IsFoldingFlavor (T : FlavorType) : Bool :=
  IsAnyOf T [FlavorType.UltraFlavor,
    FlavorType.UltraKeccakFlavor,
    FlavorType.MegaFlavor,
    FlavorType.UltraRecursiveFlavor_ BuilderType.UltraCircuitBuilder,
    FlavorType.UltraRecursiveFlavor_ BuilderType.MegaCircuitBuilder,
    FlavorType.UltraRecursiveFlavor_ BuilderType.CircuitSimulatorBN254,
    FlavorType.MegaRecursiveFlavor_ BuilderType.UltraCircuitBuilder,
    FlavorType.MegaRecursiveFlavor_ BuilderType.MegaCircuitBuilder,
    FlavorType.MegaRecursiveFlavor_ BuilderType.CircuitSimulatorBN254]

/-! ## More concrete keys -/

/-- A key that agrees with `sample_vk` on everything that is serialised and
differs from it in `log_circuit_size`, `circuit_type` and the commitment-scheme
verification key it points to. -/
def sample_vk_other_state : VerificationKey_ (Nat × Nat) Unit where
  circuit_size := 4
  log_circuit_size := 77
  num_public_inputs := 1
  circuit_type := 5
  pcs_verification_key := some ()
  contains_recursive_proof := false
  recursive_proof_public_input_indices := [0, 0]
  pub_inputs_offset := 0
  get_all := [(7, 9)]

/-- A conversion to one-byte field elements: a scalar converts to its low
byte, an index table to the low bytes of its entries and a commitment to its
two coordinates. -/
def byte_convert : convert_to_bn254_frs (Fin 256) (Fin 256 × Fin 256) where
  uint64 := fun v => [Fin.ofNat v]
  bool := fun b => [if b then 1 else 0]
  indices := fun t => t.map (fun index => Fin.ofNat index)
  commitment := fun c => [c.1, c.2]

/-- An environment with one-byte field elements that `to_buffer` writes one
after the other, for a given digest function and a given `from_buffer`. -/
def byte_env (sha256 : List Nat → List Nat) (from_buffer : List Nat → Nat) :
    HashEnv (Fin 256) where
  sizeof_FF := 1
  sizeof_FF_pos := by decide
  to_buffer := fun v => v.map (fun x => x.val)
  sha256 := sha256
  from_buffer := from_buffer

/-- A key with three commitments over one-byte coordinates. -/
def byte_vk : VerificationKey_ (Fin 256 × Fin 256) Unit where
  circuit_size := 4
  log_circuit_size := 2
  num_public_inputs := 1
  circuit_type := 0
  pcs_verification_key := none
  contains_recursive_proof := false
  recursive_proof_public_input_indices := [0, 0]
  pub_inputs_offset := 0
  get_all := [(7, 9), (5, 6), (3, 4)]

/-- The key `byte_vk` with its second commitment changed. -/
def byte_vk_changed : VerificationKey_ (Fin 256 × Fin 256) Unit where
  circuit_size := 4
  log_circuit_size := 2
  num_public_inputs := 1
  circuit_type := 0
  pcs_verification_key := none
  contains_recursive_proof := false
  recursive_proof_public_input_indices := [0, 0]
  pub_inputs_offset := 0
  get_all := [(7, 9), (5, 8), (3, 4)]

end bb

/-! # Theorems -/

namespace bb

/-! ## Verification key: serialisation and hash -/

/-- Inserting the conversion of each commitment at the end, one commitment
after the other, appends the conversions in commitment order. -/
theorem foldl_insert_at_end {α β : Type} (f : α → List β) (l : List α) (init : List β) :
    l.foldl (fun elements comm => insert_at_end elements (f comm)) init
      = init ++ (l.map f).flatten := by
  induction l generalizing init with
  | nil => simp
  | cons a l ih =>
    rw [List.foldl_cons, ih, List.map_cons, List.flatten_cons, insert_at_end,
      List.append_assoc]

/-- Claim C1: `to_field_elements()` returns the conversions of `circuit_size`,
`num_public_inputs`, `pub_inputs_offset`, `contains_recursive_proof` and the
recursive-proof index table, in this order, followed by the conversion of each
commitment of `get_all()` in `get_all()` order, and nothing else. -/
theorem to_field_elements_eq_concatenation {FF Commitment VCK : Type}
    (convert : convert_to_bn254_frs FF Commitment) (vk : VerificationKey_ Commitment VCK) :
    vk.to_field_elements convert
      = convert.uint64 vk.circuit_size
        ++ convert.uint64 vk.num_public_inputs
        ++ convert.uint64 vk.pub_inputs_offset
        ++ convert.bool vk.contains_recursive_proof
        ++ convert.indices vk.recursive_proof_public_input_indices
        ++ (vk.get_all.map convert.commitment).flatten := by
  unfold VerificationKey_.to_field_elements
  simp only [foldl_insert_at_end]
  simp only [insert_at_end, List.nil_append]

/-- Claim C2, evaluated on the sample key (eight field elements of 32 bytes):
the bytes that `hash()` gives to the digest are 256 zero bytes followed by the
256 serialised bytes, which is not the serialisation alone; so for every digest
function `hash()` is the digest of the padded bytes, and it can equal the
digest of the serialisation only if the digest followed by `from_buffer` takes
the same value on these two different byte strings. -/
theorem hash_sample_digests_padded_bytes :
    (∀ sha256 from_buffer,
      sample_vk.hash_to_hash (sample_env sha256 from_buffer) sample_convert
        = List.replicate 256 0
          ++ (sample_env sha256 from_buffer).to_buffer
              (sample_vk.to_field_elements sample_convert))
    ∧ (∀ sha256 from_buffer,
      sample_vk.hash_to_hash (sample_env sha256 from_buffer) sample_convert
        ≠ (sample_env sha256 from_buffer).to_buffer
            (sample_vk.to_field_elements sample_convert))
    ∧ (∀ sha256 from_buffer,
      sample_vk.hash (sample_env sha256 from_buffer) sample_convert
        = from_buffer (sha256 (List.replicate 256 0
            ++ (sample_env sha256 from_buffer).to_buffer
                (sample_vk.to_field_elements sample_convert))))
    ∧ (∀ sha256 from_buffer,
      sample_vk.hash (sample_env sha256 from_buffer) sample_convert
          = from_buffer (sha256 ((sample_env sha256 from_buffer).to_buffer
              (sample_vk.to_field_elements sample_convert))) →
      ∃ a b : List Nat, a.length = 512 ∧ b.length = 256
        ∧ from_buffer (sha256 a) = from_buffer (sha256 b)) := by
  have padded : ∀ (env : HashEnv Nat),
      sample_vk.hash_to_hash env sample_convert
        = List.replicate ((sample_vk.to_field_elements sample_convert).length * env.sizeof_FF) 0
          ++ env.to_buffer (sample_vk.to_field_elements sample_convert) :=
    fun _ => rfl
  have count : (sample_vk.to_field_elements sample_convert).length = 8 := by decide
  have size : ∀ sha256 from_buffer,
      ((sample_env sha256 from_buffer).to_buffer
        (sample_vk.to_field_elements sample_convert)).length = 256 := by
    intro sha256 from_buffer
    show ((sample_vk.to_field_elements sample_convert).flatMap sample_bytes32).length = 256
    have h32 : ∀ x, (sample_bytes32 x).length = 32 := fun x => by
      simp [sample_bytes32]
    have hfe : sample_vk.to_field_elements sample_convert = [4, 1, 0, 0, 0, 0, 7, 9] := by
      decide
    rw [hfe]
    simp [List.flatMap_cons, h32]
  have input : ∀ sha256 from_buffer,
      sample_vk.hash_to_hash (sample_env sha256 from_buffer) sample_convert
        = List.replicate 256 0
          ++ (sample_env sha256 from_buffer).to_buffer
              (sample_vk.to_field_elements sample_convert) := by
    intro sha256 from_buffer
    rw [padded, count]
    rfl
  refine ⟨input, fun sha256 from_buffer h => ?_, fun sha256 from_buffer => ?_,
    fun sha256 from_buffer h => ?_⟩
  · have hlen := congrArg List.length h
    rw [input, List.length_append, List.length_replicate, size] at hlen
    omega
  · rw [VerificationKey_.hash, input]
    rfl
  · refine ⟨sample_vk.hash_to_hash (sample_env sha256 from_buffer) sample_convert,
      (sample_env sha256 from_buffer).to_buffer
        (sample_vk.to_field_elements sample_convert), ?_, size sha256 from_buffer, h⟩
    rw [input, List.length_append, List.length_replicate, size]

/-- Claim C3: the byte string that `hash()` passes to the digest is
`n * sizeof(FF)` zero bytes followed by `to_buffer(to_field_elements())`, where
`n` is the number of field elements; when `n > 0` it begins with a zero byte
and is strictly longer than the serialised field elements. -/
theorem hash_input_is_zero_padding_then_buffer {FF Commitment VCK : Type}
    (env : HashEnv FF) (convert : convert_to_bn254_frs FF Commitment)
    (vk : VerificationKey_ Commitment VCK) :
    vk.hash_to_hash env convert
        = List.replicate ((vk.to_field_elements convert).length * env.sizeof_FF) 0
          ++ env.to_buffer (vk.to_field_elements convert)
    ∧ vk.hash env convert
        = env.from_buffer (env.sha256
            (List.replicate ((vk.to_field_elements convert).length * env.sizeof_FF) 0
              ++ env.to_buffer (vk.to_field_elements convert)))
    ∧ (0 < (vk.to_field_elements convert).length →
        (vk.hash_to_hash env convert).head? = some 0
        ∧ (env.to_buffer (vk.to_field_elements convert)).length
            < (vk.hash_to_hash env convert).length) := by
  have h : vk.hash_to_hash env convert
      = List.replicate ((vk.to_field_elements convert).length * env.sizeof_FF) 0
        ++ env.to_buffer (vk.to_field_elements convert) := rfl
  refine ⟨h, by rw [VerificationKey_.hash, h], fun hn => ?_⟩
  have hpos : 0 < (vk.to_field_elements convert).length * env.sizeof_FF :=
    Nat.mul_pos hn env.sizeof_FF_pos
  rw [h]
  constructor
  · obtain ⟨m, hm⟩ := Nat.exists_eq_succ_of_ne_zero (Nat.pos_iff_ne_zero.mp hpos)
    rw [hm, List.replicate_succ]
    rfl
  · simp only [List.length_append, List.length_replicate]
    omega

/-- The sample key has eight field elements of 32 bytes: its hash input
begins with a zero byte and is longer than the serialised field elements. -/
theorem hash_input_is_zero_padding_then_buffer_sample :
    0 < (sample_vk.to_field_elements sample_convert).length
    ∧ (sample_vk.hash_to_hash (sample_env id List.length) sample_convert).head? = some 0
    ∧ ((sample_env id List.length).to_buffer
        (sample_vk.to_field_elements sample_convert)).length
          < (sample_vk.hash_to_hash (sample_env id List.length) sample_convert).length := by
  have h := hash_input_is_zero_padding_then_buffer (sample_env id List.length) sample_convert
    sample_vk
  exact ⟨by decide, h.2.2 (by decide)⟩

/-! ## Relation-shape derivation -/

/-- The conditional of the two maximum functions is the maximum of its
arguments. -/
theorem ite_gt_eq_max (a b : Nat) : (if a > b then a else b) = max a b := by
  by_cases h : a > b
  · rw [if_pos h]; omega
  · rw [if_neg h]; omega

/-- The maximum of a list of numbers, starting from 0, bounds each of them. -/
theorem le_foldr_max (l : List Nat) (x : Nat) (hx : x ∈ l) : x ≤ l.foldr max 0 := by
  induction l with
  | nil => cases hx
  | cons a l ih =>
    rw [List.foldr_cons]
    rcases List.mem_cons.mp hx with h | h
    · subst h; exact Nat.le_max_left _ _
    · exact Nat.le_trans (ih h) (Nat.le_max_right _ _)

/-- The maximum of a non-empty list of numbers is one of them. -/
theorem foldr_max_mem (l : List Nat) (hl : l ≠ []) : l.foldr max 0 ∈ l := by
  induction l with
  | nil => exact absurd rfl hl
  | cons a l ih =>
    rw [List.foldr_cons]
    by_cases hnil : l = []
    · subst hnil
      simp
    · rcases Nat.le_total a (l.foldr max 0) with h | h
      · rw [Nat.max_eq_right h]
        exact List.mem_cons_of_mem _ (ih hnil)
      · rw [Nat.max_eq_left h]
        exact List.mem_cons_self _ _

/-- Inserting a number anywhere in a list does not lower the maximum. -/
theorem foldr_max_insert_le (l₁ l₂ : List Nat) (x : Nat) :
    (l₁ ++ l₂).foldr max 0 ≤ (l₁ ++ x :: l₂).foldr max 0 := by
  induction l₁ with
  | nil =>
    simp only [List.nil_append, List.foldr_cons]
    exact Nat.le_max_right _ _
  | cons a l₁ ih =>
    simp only [List.cons_append, List.foldr_cons]
    exact max_le_max (Nat.le_refl a) ih

/-- From index `Index` on, `compute_max_partial_relation_length` is the maximum
of the partial lengths of the relations at positions `Index`, `Index + 1`, ... -/
theorem compute_max_partial_relation_length_drop {Shape : Type}
    (Tuple : List (RelationDescriptor Shape)) (n : Nat) :
    ∀ Index, Tuple.length - Index = n →
      compute_max_partial_relation_length Tuple Index
        = ((Tuple.drop Index).map (fun r => r.RELATION_LENGTH)).foldr max 0 := by
  induction n with
  | zero =>
    intro Index h
    have hge : Index ≥ Tuple.length := by omega
    rw [compute_max_partial_relation_length, dif_pos hge, List.drop_of_length_le hge]
    rfl
  | succ n ih =>
    intro Index h
    have hlt : Index < Tuple.length := by omega
    rw [compute_max_partial_relation_length, dif_neg (Nat.not_le.mpr hlt)]
    simp only
    rw [ite_gt_eq_max, ih (Index + 1) (by omega), List.drop_eq_getElem_cons hlt]
    simp only [List.get_eq_getElem, List.map_cons, List.foldr_cons]

/-- From index `Index` on, `compute_max_total_relation_length` is the maximum
of the total lengths of the relations at positions `Index`, `Index + 1`, ... -/
theorem compute_max_total_relation_length_drop {Shape : Type}
    (Tuple : List (RelationDescriptor Shape)) (n : Nat) :
    ∀ Index, Tuple.length - Index = n →
      compute_max_total_relation_length Tuple Index
        = ((Tuple.drop Index).map (fun r => r.TOTAL_RELATION_LENGTH)).foldr max 0 := by
  induction n with
  | zero =>
    intro Index h
    have hge : Index ≥ Tuple.length := by omega
    rw [compute_max_total_relation_length, dif_pos hge, List.drop_of_length_le hge]
    rfl
  | succ n ih =>
    intro Index h
    have hlt : Index < Tuple.length := by omega
    rw [compute_max_total_relation_length, dif_neg (Nat.not_le.mpr hlt)]
    simp only
    rw [ite_gt_eq_max, ih (Index + 1) (by omega), List.drop_eq_getElem_cons hlt]
    simp only [List.get_eq_getElem, List.map_cons, List.foldr_cons]

/-- From index `Index` on, `compute_number_of_subrelations` is the sum of the
subrelation counts of the relations at positions `Index`, `Index + 1`, ... -/
theorem compute_number_of_subrelations_drop {Shape : Type}
    (Tuple : List (RelationDescriptor Shape)) (n : Nat) :
    ∀ Index, Tuple.length - Index = n →
      compute_number_of_subrelations Tuple Index
        = ((Tuple.drop Index).map (fun r => r.SUBRELATION_PARTIAL_LENGTHS.length)).sum := by
  induction n with
  | zero =>
    intro Index h
    have hge : Index ≥ Tuple.length := by omega
    rw [compute_number_of_subrelations, dif_pos hge, List.drop_of_length_le hge]
    rfl
  | succ n ih =>
    intro Index h
    have hlt : Index < Tuple.length := by omega
    rw [compute_number_of_subrelations, dif_neg (Nat.not_le.mpr hlt)]
    simp only
    rw [ih (Index + 1) (by omega), List.drop_eq_getElem_cons hlt]
    simp only [List.get_eq_getElem, List.map_cons, List.sum_cons]

/-- With the default `Index = 0` the partial maximum ranges over the whole
tuple. -/
theorem compute_max_partial_relation_length_zero {Shape : Type}
    (Tuple : List (RelationDescriptor Shape)) :
    compute_max_partial_relation_length Tuple 0
      = (Tuple.map (fun r => r.RELATION_LENGTH)).foldr max 0 := by
  rw [compute_max_partial_relation_length_drop Tuple Tuple.length 0 rfl, List.drop_zero]

/-- With the default `Index = 0` the total maximum ranges over the whole
tuple. -/
theorem compute_max_total_relation_length_zero {Shape : Type}
    (Tuple : List (RelationDescriptor Shape)) :
    compute_max_total_relation_length Tuple 0
      = (Tuple.map (fun r => r.TOTAL_RELATION_LENGTH)).foldr max 0 := by
  rw [compute_max_total_relation_length_drop Tuple Tuple.length 0 rfl, List.drop_zero]

/-- With the default `Index = 0` the subrelation count ranges over the whole
tuple. -/
theorem compute_number_of_subrelations_zero {Shape : Type}
    (Tuple : List (RelationDescriptor Shape)) :
    compute_number_of_subrelations Tuple 0
      = (Tuple.map (fun r => r.SUBRELATION_PARTIAL_LENGTHS.length)).sum := by
  rw [compute_number_of_subrelations_drop Tuple Tuple.length 0 rfl, List.drop_zero]

/-- Claim C4: `compute_max_partial_relation_length` returns 0 on the empty
list; on every list the result is at least the partial length of every
relation, and on a non-empty list it is the partial length of one of the
relations (so it is their maximum). -/
theorem compute_max_partial_relation_length_is_max {Shape : Type}
    (Tuple : List (RelationDescriptor Shape)) :
    (Tuple = [] → compute_max_partial_relation_length Tuple 0 = 0)
    ∧ (∀ r ∈ Tuple, r.RELATION_LENGTH ≤ compute_max_partial_relation_length Tuple 0)
    ∧ (Tuple ≠ [] →
        ∃ r ∈ Tuple, compute_max_partial_relation_length Tuple 0 = r.RELATION_LENGTH) := by
  rw [compute_max_partial_relation_length_zero]
  refine ⟨fun h => by subst h; rfl, fun r hr => ?_, fun hne => ?_⟩
  · exact le_foldr_max _ _ (List.mem_map_of_mem (fun r => r.RELATION_LENGTH) hr)
  · have hmem := foldr_max_mem (Tuple.map (fun r => r.RELATION_LENGTH))
      (fun h => hne (List.map_eq_nil_iff.mp h))
    obtain ⟨r, hr, hlen⟩ := List.mem_map.mp hmem
    exact ⟨r, hr, hlen.symm⟩

/-- On a tuple of three relations with partial lengths 3, 6 and 5 the partial
maximum is 6, the partial length of the second relation. -/
theorem compute_max_partial_relation_length_is_max_sample :
    compute_max_partial_relation_length
      [sample_relation 3 4 [3, 2], sample_relation 6 7 [6], sample_relation 5 9 [5, 5, 1]] 0 = 6
    ∧ compute_max_partial_relation_length ([] : List (RelationDescriptor Nat)) 0 = 0 := by
  have h := compute_max_partial_relation_length_is_max
    [sample_relation 3 4 [3, 2], sample_relation 6 7 [6], sample_relation 5 9 [5, 5, 1]]
  have h0 := compute_max_partial_relation_length_is_max ([] : List (RelationDescriptor Nat))
  refine ⟨?_, h0.1 rfl⟩
  obtain ⟨r, hr, hlen⟩ := h.2.2 (by simp)
  have h6 := h.2.1 (sample_relation 6 7 [6]) (by simp)
  rw [hlen] at h6 ⊢
  simp only [List.mem_cons, List.mem_singleton, List.not_mem_nil, or_false] at hr
  rcases hr with hr | hr | hr <;> subst hr <;> simp [sample_relation] at h6 ⊢

/-- Claim C5: `compute_max_total_relation_length` returns 0 on the empty list;
on every list the result is at least the total length of every relation, and
on a non-empty list it is the total length of one of the relations (so it is
their maximum). -/
theorem compute_max_total_relation_length_is_max {Shape : Type}
    (Tuple : List (RelationDescriptor Shape)) :
    (Tuple = [] → compute_max_total_relation_length Tuple 0 = 0)
    ∧ (∀ r ∈ Tuple, r.TOTAL_RELATION_LENGTH ≤ compute_max_total_relation_length Tuple 0)
    ∧ (Tuple ≠ [] →
        ∃ r ∈ Tuple,
          compute_max_total_relation_length Tuple 0 = r.TOTAL_RELATION_LENGTH) := by
  rw [compute_max_total_relation_length_zero]
  refine ⟨fun h => by subst h; rfl, fun r hr => ?_, fun hne => ?_⟩
  · exact le_foldr_max _ _ (List.mem_map_of_mem (fun r => r.TOTAL_RELATION_LENGTH) hr)
  · have hmem := foldr_max_mem (Tuple.map (fun r => r.TOTAL_RELATION_LENGTH))
      (fun h => hne (List.map_eq_nil_iff.mp h))
    obtain ⟨r, hr, hlen⟩ := List.mem_map.mp hmem
    exact ⟨r, hr, hlen.symm⟩

/-- On a tuple of three relations with total lengths 4, 7 and 9 the total
maximum is 9, the total length of the third relation. -/
theorem compute_max_total_relation_length_is_max_sample :
    compute_max_total_relation_length
      [sample_relation 3 4 [3, 2], sample_relation 6 7 [6], sample_relation 5 9 [5, 5, 1]] 0 = 9
    ∧ compute_max_total_relation_length ([] : List (RelationDescriptor Nat)) 0 = 0 := by
  have h := compute_max_total_relation_length_is_max
    [sample_relation 3 4 [3, 2], sample_relation 6 7 [6], sample_relation 5 9 [5, 5, 1]]
  have h0 := compute_max_total_relation_length_is_max ([] : List (RelationDescriptor Nat))
  refine ⟨?_, h0.1 rfl⟩
  obtain ⟨r, hr, hlen⟩ := h.2.2 (by simp)
  have h9 := h.2.1 (sample_relation 5 9 [5, 5, 1]) (by simp)
  rw [hlen] at h9 ⊢
  simp only [List.mem_cons, List.mem_singleton, List.not_mem_nil, or_false] at hr
  rcases hr with hr | hr | hr <;> subst hr <;> simp [sample_relation] at h9 ⊢

/-- Claim C6: both maximum functions are monotonic non-decreasing as relations
are added: inserting a relation `r` at any position of a list (between `L₁` and
`L₂`) does not lower the result; and on a one-element list each returns that
relation's own length. -/
theorem compute_max_relation_length_monotone {Shape : Type}
    (L₁ L₂ : List (RelationDescriptor Shape)) (r : RelationDescriptor Shape) :
    compute_max_partial_relation_length (L₁ ++ L₂) 0
        ≤ compute_max_partial_relation_length (L₁ ++ r :: L₂) 0
    ∧ compute_max_total_relation_length (L₁ ++ L₂) 0
        ≤ compute_max_total_relation_length (L₁ ++ r :: L₂) 0
    ∧ compute_max_partial_relation_length [r] 0 = r.RELATION_LENGTH
    ∧ compute_max_total_relation_length [r] 0 = r.TOTAL_RELATION_LENGTH := by
  simp only [compute_max_partial_relation_length_zero, compute_max_total_relation_length_zero,
    List.map_append, List.map_cons]
  refine ⟨foldr_max_insert_le _ _ _, foldr_max_insert_le _ _ _, ?_, ?_⟩
  · simp
  · simp

/-- Claim C7: `compute_number_of_subrelations` is the sum over the relations of
the size of `SUBRELATION_PARTIAL_LENGTHS`, 0 for the empty list; inserting one
relation with `k` subrelations at any position (between `L₁` and `L₂`) raises
the result by exactly `k`. -/
theorem compute_number_of_subrelations_is_sum {Shape : Type}
    (Tuple L₁ L₂ : List (RelationDescriptor Shape)) (r : RelationDescriptor Shape) :
    compute_number_of_subrelations Tuple 0
        = (Tuple.map (fun r => r.SUBRELATION_PARTIAL_LENGTHS.length)).sum
    ∧ compute_number_of_subrelations ([] : List (RelationDescriptor Shape)) 0 = 0
    ∧ compute_number_of_subrelations (L₁ ++ r :: L₂) 0
        = compute_number_of_subrelations (L₁ ++ L₂) 0
          + r.SUBRELATION_PARTIAL_LENGTHS.length := by
  simp only [compute_number_of_subrelations_zero, List.map_append, List.map_cons,
    List.sum_append, List.sum_cons, List.map_nil, List.sum_nil, true_and]
  omega

/-! ## Entity collections -/

/-- When the addresses of the data are pairwise distinct, the loop returns the
label paired with the entry that has the address of `element`. -/
theorem flavor_get_label_loop_found {α : Type} (element : Ref α) (all : List (Ref α)) :
    ∀ (labels : List String) (i : Nat) (hl : i < labels.length) (ha : i < all.length),
      (all.map Ref.addr).Nodup → element.addr = (all.get ⟨i, ha⟩).addr →
      flavor_get_label_loop element (zip_view labels all) = labels.get ⟨i, hl⟩ := by
  induction all with
  | nil => intro labels i hl ha; exact absurd ha (Nat.not_lt_zero i)
  | cons data rest ih =>
    intro labels i hl ha hnodup haddr
    cases labels with
    | nil => exact absurd hl (Nat.not_lt_zero i)
    | cons label labels =>
      rw [List.map_cons, List.nodup_cons] at hnodup
      cases i with
      | zero =>
        have hsame : data.addr = element.addr := haddr.symm
        show (if data.addr = element.addr then label
          else flavor_get_label_loop element (zip_view labels rest)) = label
        rw [if_pos hsame]
      | succ i =>
        have hne : ¬ data.addr = element.addr := by
          intro heq
          apply hnodup.1
          rw [heq, haddr]
          exact List.mem_map_of_mem Ref.addr (List.get_mem _ _ _)
        show (if data.addr = element.addr then label
          else flavor_get_label_loop element (zip_view labels rest)) = labels.get ⟨i, _⟩
        rw [if_neg hne]
        exact ih labels i (Nat.lt_of_succ_lt_succ hl) (Nat.lt_of_succ_lt_succ ha) hnodup.2 haddr

/-- When no entry has the address of `element`, the loop runs to the end and
returns the sentinel. -/
theorem flavor_get_label_loop_not_found {α : Type} (element : Ref α) (all : List (Ref α)) :
    ∀ (labels : List String), (∀ data ∈ all, data.addr ≠ element.addr) →
      flavor_get_label_loop element (zip_view labels all) = "(unknown label)" := by
  induction all with
  | nil => intro labels _; simp [zip_view, flavor_get_label_loop]
  | cons data rest ih =>
    intro labels hall
    cases labels with
    | nil => simp [zip_view, flavor_get_label_loop]
    | cons label labels =>
      show (if data.addr = element.addr then label
        else flavor_get_label_loop element (zip_view labels rest)) = "(unknown label)"
      rw [if_neg (hall data (List.mem_cons_self _ _))]
      exact ih labels (fun d hd => hall d (List.mem_cons_of_mem _ hd))

/-- Claim C8: in a collection whose `get_labels()` and `get_all()` have equal
length and whose `get_all()` entries have pairwise distinct addresses,
`flavor_get_label` returns the label at index `i` for the element that is the
entry at index `i` of `get_all()` (the element with that entry's address), and
returns `"(unknown label)"` for every element whose address is the address of
no entry, whatever its value. -/
theorem flavor_get_label_by_identity {α : Type} (container : Entities α)
    (hlen : container.get_labels.length = container.get_all.length)
    (hdistinct : (container.get_all.map Ref.addr).Nodup) :
    (∀ (i : Nat) (hi : i < container.get_all.length) (element : Ref α),
        element.addr = (container.get_all.get ⟨i, hi⟩).addr →
        flavor_get_label container element
          = container.get_labels.get ⟨i, Nat.lt_of_lt_of_eq hi hlen.symm⟩)
    ∧ (∀ element : Ref α,
        (∀ data ∈ container.get_all, data.addr ≠ element.addr) →
        flavor_get_label container element = "(unknown label)") := by
  constructor
  · intro i hi element haddr
    exact flavor_get_label_loop_found element container.get_all container.get_labels i
      (Nat.lt_of_lt_of_eq hi hlen.symm) hi hdistinct haddr
  · intro element hall
    exact flavor_get_label_loop_not_found element container.get_all container.get_labels hall

/-- In the sample collection the entry at index 1 (address 108) has the label
`"q_l"`, although the entry at index 0 holds the same value; an object with
that value at another address has no label. -/
theorem flavor_get_label_by_identity_sample :
    sample_entities.get_labels.length = sample_entities.get_all.length
    ∧ (sample_entities.get_all.map Ref.addr).Nodup
    ∧ flavor_get_label sample_entities ⟨108, 5⟩ = "q_l"
    ∧ flavor_get_label sample_entities ⟨200, 5⟩ = "(unknown label)" := by
  have h := flavor_get_label_by_identity sample_entities (by decide) (by decide)
  exact ⟨by decide, by decide, h.1 1 (by decide) ⟨108, 5⟩ rfl,
    h.2 ⟨200, 5⟩ (by decide)⟩

/-- Claim C9: the result of `get_unshifted_then_shifted` has as many entries
as `get_unshifted()` and `get_shifted()` together; its first
`len(get_unshifted())` entries are the entries of `get_unshifted()` in order,
the same objects, and the remaining entries are those of `get_shifted()` in
order. -/
theorem get_unshifted_then_shifted_layout {α : Type} (e : Entities α) :
    (get_unshifted_then_shifted e).length = e.get_unshifted.length + e.get_shifted.length
    ∧ (get_unshifted_then_shifted e).take e.get_unshifted.length = e.get_unshifted
    ∧ (get_unshifted_then_shifted e).drop e.get_unshifted.length = e.get_shifted := by
  refine ⟨?_, ?_, ?_⟩
  · exact List.length_append _ _
  · exact List.take_left' rfl
  · exact List.drop_left' rfl

/-! ## Proving key -/

/-- With enough halvings allowed, `get_msb_loop` is the floor of the binary
logarithm. -/
theorem get_msb_loop_eq_log (fuel : Nat) : ∀ n, n ≤ fuel → get_msb_loop fuel n = Nat.log 2 n := by
  induction fuel with
  | zero =>
    intro n hn
    have h0 : n = 0 := Nat.le_zero.mp hn
    subst h0
    rw [get_msb_loop, Nat.log_zero_right]
  | succ fuel ih =>
    intro n hn
    rw [get_msb_loop]
    by_cases h1 : n ≤ 1
    · rw [if_pos h1, Nat.log_of_lt (by omega)]
    · have h2 : 2 ≤ n := by omega
      rw [if_neg h1, Nat.log_of_one_lt_of_le (by decide) h2, ih (n / 2) (by omega)]

/-- The model of `numeric::get_msb` computes `floor(log2(n))`. -/
theorem get_msb_eq_log (n : Nat) : get_msb n = Nat.log 2 n :=
  get_msb_loop_eq_log n n (Nat.le_refl n)

/-- On a power of two `get_msb` returns the exponent. -/
theorem get_msb_two_pow (k : Nat) : get_msb (2 ^ k) = k := by
  rw [get_msb_eq_log, Nat.log_pow (by decide)]

/-- Claim C10: constructing `ProvingKey_(2 ^ k, num_public_inputs)`, with
`2 ^ k + 1` representable in `size_t`, yields a key with `circuit_size = 2 ^ k`,
`log_circuit_size = k`, the given `num_public_inputs`, a commitment key built
with capacity `circuit_size + 1` and an evaluation domain of size
`circuit_size`. -/
theorem ProvingKey_construct_power_of_two {FF CK ED : Type} (env : KeyEnv CK ED)
    (mem : Indeterminate) (k num_public_inputs : Nat) (hrep : 2 ^ k + 1 < 2 ^ env.size_bits) :
    (ProvingKey_.construct env mem (2 ^ k) num_public_inputs :
        ProvingKey_ FF CK ED).circuit_size = 2 ^ k
    ∧ (ProvingKey_.construct env mem (2 ^ k) num_public_inputs :
        ProvingKey_ FF CK ED).log_circuit_size = k
    ∧ (ProvingKey_.construct env mem (2 ^ k) num_public_inputs :
        ProvingKey_ FF CK ED).num_public_inputs = num_public_inputs
    ∧ (ProvingKey_.construct env mem (2 ^ k) num_public_inputs :
        ProvingKey_ FF CK ED).commitment_key = some (env.make_commitment_key (2 ^ k + 1))
    ∧ (ProvingKey_.construct env mem (2 ^ k) num_public_inputs :
        ProvingKey_ FF CK ED).evaluation_domain
          = env.make_evaluation_domain (2 ^ k) (2 ^ k) := by
  refine ⟨rfl, ?_, rfl, ?_, rfl⟩
  · exact get_msb_two_pow k
  · show some (env.make_commitment_key ((2 ^ k + 1) % 2 ^ env.size_bits)) = _
    rw [Nat.mod_eq_of_lt hrep]

/-- The scenario `ProvingKey_(1024, 3)` on a 64-bit platform: the key has
`log_circuit_size = 10`, three public inputs, a commitment key of capacity 1025
and an evaluation domain of size 1024. -/
theorem ProvingKey_construct_1024_3 :
    2 ^ 10 + 1 < 2 ^ sample_key_env.size_bits
    ∧ (ProvingKey_.construct sample_key_env ⟨true, [7]⟩ 1024 3 :
        ProvingKey_ Nat Nat (Nat × Nat)).circuit_size = 1024
    ∧ (ProvingKey_.construct sample_key_env ⟨true, [7]⟩ 1024 3 :
        ProvingKey_ Nat Nat (Nat × Nat)).log_circuit_size = 10
    ∧ (ProvingKey_.construct sample_key_env ⟨true, [7]⟩ 1024 3 :
        ProvingKey_ Nat Nat (Nat × Nat)).num_public_inputs = 3
    ∧ (ProvingKey_.construct sample_key_env ⟨true, [7]⟩ 1024 3 :
        ProvingKey_ Nat Nat (Nat × Nat)).commitment_key = some 1025
    ∧ (ProvingKey_.construct sample_key_env ⟨true, [7]⟩ 1024 3 :
        ProvingKey_ Nat Nat (Nat × Nat)).evaluation_domain = (1024, 1024) :=
  ⟨by decide, ProvingKey_construct_power_of_two sample_key_env ⟨true, [7]⟩ 10 3 (by decide)⟩

/-! ## Proving key with precomputed and witness polynomials -/

/-- After a sequence of assignments of `v` through the references `targets`,
`get_all()` reads `v` at every address that was a target and the old value
elsewhere. -/
theorem foldl_assign_get_all {α : Type} (v : α) (targets : List (Ref α)) :
    ∀ e : Entities α,
      (targets.foldl (fun e t => e.assign t v) e).get_all
        = e.get_all.map
            (fun r => if r.addr ∈ targets.map Ref.addr then (⟨r.addr, v⟩ : Ref α) else r) := by
  induction targets with
  | nil =>
    intro e
    simp
  | cons t ts ih =>
    intro e
    rw [List.foldl_cons, ih]
    show List.map _ (List.map (assign_through t v) e.get_all) = _
    rw [List.map_map]
    apply List.map_congr_left
    intro r _
    by_cases h : r.addr = t.addr
    · simp [assign_through, h]
    · simp [assign_through, h]

/-- The allocation loop leaves every stored polynomial of the base class equal
to `Polynomial(circuit_size)` and moves no object. -/
theorem allocate_polynomials_get_all {P : Type} (poly_env : PolynomialEnv P)
    (base : Entities P) (circuit_size : Nat) :
    (allocate_polynomials poly_env base circuit_size).get_all
      = base.get_all.map (fun r => ⟨r.addr, poly_env.make_polynomial circuit_size⟩) := by
  rw [allocate_polynomials, foldl_assign_get_all]
  apply List.map_congr_left
  intro r hr
  rw [if_pos (List.mem_map_of_mem Ref.addr hr)]

/-- The allocation loop does not change the labels. -/
theorem allocate_polynomials_get_labels {P : Type} (poly_env : PolynomialEnv P)
    (base : Entities P) (circuit_size : Nat) :
    (allocate_polynomials poly_env base circuit_size).get_labels = base.get_labels := by
  have h : ∀ (targets : List (Ref P)) (e : Entities P),
      (targets.foldl
        (fun e t => e.assign t (poly_env.make_polynomial circuit_size)) e).get_labels
        = e.get_labels := by
    intro targets
    induction targets with
    | nil => intro e; rfl
    | cons t ts ih => intro e; rw [List.foldl_cons, ih]; rfl
  exact h base.get_all base

/-- Claim C11: after `ProvingKeyAvm_(2 ^ k, num_public_inputs)` every polynomial
returned by `get_precomputed_polynomials()`, by `get_witness_polynomials()` and
by `get_all()` has exactly `2 ^ k` elements, and `log_circuit_size = k`; the
getters return the objects of the two base classes, as many as before. -/
theorem ProvingKeyAvm_construct_allocates {P FF CK ED : Type} (env : KeyEnv CK ED)
    (poly_env : PolynomialEnv P) (mem : Indeterminate) (precomputed witness : Entities P)
    (k num_public_inputs : Nat) :
    (∀ p ∈ (ProvingKeyAvm_.construct env poly_env mem precomputed witness (2 ^ k)
          num_public_inputs : ProvingKeyAvm_ P FF CK ED).get_precomputed_polynomials,
        poly_env.size p.val = 2 ^ k)
    ∧ (∀ p ∈ (ProvingKeyAvm_.construct env poly_env mem precomputed witness (2 ^ k)
          num_public_inputs : ProvingKeyAvm_ P FF CK ED).get_witness_polynomials,
        poly_env.size p.val = 2 ^ k)
    ∧ (∀ p ∈ (ProvingKeyAvm_.construct env poly_env mem precomputed witness (2 ^ k)
          num_public_inputs : ProvingKeyAvm_ P FF CK ED).get_all,
        poly_env.size p.val = 2 ^ k)
    ∧ (ProvingKeyAvm_.construct env poly_env mem precomputed witness (2 ^ k)
          num_public_inputs : ProvingKeyAvm_ P FF CK ED).log_circuit_size = k
    ∧ (ProvingKeyAvm_.construct env poly_env mem precomputed witness (2 ^ k)
          num_public_inputs : ProvingKeyAvm_ P FF CK ED).get_precomputed_polynomials.map Ref.addr
        = precomputed.get_all.map Ref.addr
    ∧ (ProvingKeyAvm_.construct env poly_env mem precomputed witness (2 ^ k)
          num_public_inputs : ProvingKeyAvm_ P FF CK ED).get_witness_polynomials.map Ref.addr
        = witness.get_all.map Ref.addr := by
  have hpre : (ProvingKeyAvm_.construct env poly_env mem precomputed witness (2 ^ k)
      num_public_inputs : ProvingKeyAvm_ P FF CK ED).get_precomputed_polynomials
      = precomputed.get_all.map (fun r => ⟨r.addr, poly_env.make_polynomial (2 ^ k)⟩) :=
    allocate_polynomials_get_all poly_env precomputed (2 ^ k)
  have hwit : (ProvingKeyAvm_.construct env poly_env mem precomputed witness (2 ^ k)
      num_public_inputs : ProvingKeyAvm_ P FF CK ED).get_witness_polynomials
      = witness.get_all.map (fun r => ⟨r.addr, poly_env.make_polynomial (2 ^ k)⟩) :=
    allocate_polynomials_get_all poly_env witness (2 ^ k)
  have hsize : ∀ (l : List (Ref P)),
      ∀ p ∈ l.map (fun r => (⟨r.addr, poly_env.make_polynomial (2 ^ k)⟩ : Ref P)),
        poly_env.size p.val = 2 ^ k := by
    intro l p hp
    obtain ⟨r, _, hr⟩ := List.mem_map.mp hp
    rw [← hr]
    exact poly_env.size_make_polynomial (2 ^ k)
  refine ⟨?_, ?_, ?_, get_msb_two_pow k, ?_, ?_⟩
  · rw [hpre]; exact hsize _
  · rw [hwit]; exact hsize _
  · intro p hp
    rw [ProvingKeyAvm_.get_all, concatenate, hpre, hwit] at hp
    rcases List.mem_append.mp hp with h | h
    · exact hsize _ p h
    · exact hsize _ p h
  · rw [hpre, List.map_map]; rfl
  · rw [hwit, List.map_map]; rfl

/-- The scenario `ProvingKeyAvm_(1024, 3)` with two precomputed and three
witness polynomials: all five polynomials of `get_all()` have 1024 elements and
`log_circuit_size = 10`. -/
theorem ProvingKeyAvm_construct_allocates_1024_3 :
    (∀ p ∈ (ProvingKeyAvm_.construct sample_key_env sample_polynomial_env ⟨true, [7]⟩
          sample_precomputed sample_witness (2 ^ 10) 3 :
          ProvingKeyAvm_ (List Nat) Nat Nat (Nat × Nat)).get_all,
        p.val.length = 2 ^ 10)
    ∧ (ProvingKeyAvm_.construct sample_key_env sample_polynomial_env ⟨true, [7]⟩
          sample_precomputed sample_witness (2 ^ 10) 3 :
          ProvingKeyAvm_ (List Nat) Nat Nat (Nat × Nat)).get_all.length = 5
    ∧ (ProvingKeyAvm_.construct sample_key_env sample_polynomial_env ⟨true, [7]⟩
          sample_precomputed sample_witness (2 ^ 10) 3 :
          ProvingKeyAvm_ (List Nat) Nat Nat (Nat × Nat)).log_circuit_size = 10 := by
  have h := @ProvingKeyAvm_construct_allocates (List Nat) Nat Nat (Nat × Nat) sample_key_env
    sample_polynomial_env ⟨true, [7]⟩ sample_precomputed sample_witness 10 3
  refine ⟨h.2.2.1, ?_, h.2.2.2.1⟩
  have hpre := congrArg List.length h.2.2.2.2.1
  have hwit := congrArg List.length h.2.2.2.2.2
  rw [List.length_map, List.length_map] at hpre hwit
  rw [ProvingKeyAvm_.get_all, concatenate, List.length_append, hpre, hwit]
  rfl

/-- Claim C12: `get_all()` of the union key is the precomputed polynomials
followed by the witness polynomials and `get_labels()` the precomputed labels
followed by the witness labels; so when the labels and values of each
component have equal length, the labels and values of the union have equal
length and the union pairs each label with the value at the same index: its
pairing is the pairing of the precomputed part followed by the pairing of the
witness part. -/
theorem ProvingKeyAvm_get_all_get_labels_aligned {P FF CK ED : Type}
    (key : ProvingKeyAvm_ P FF CK ED) :
    key.get_all = key.PrecomputedPolynomials.get_all ++ key.WitnessPolynomials.get_all
    ∧ key.get_labels
        = key.PrecomputedPolynomials.get_labels ++ key.WitnessPolynomials.get_labels
    ∧ (key.PrecomputedPolynomials.get_labels.length = key.PrecomputedPolynomials.get_all.length →
        key.WitnessPolynomials.get_labels.length = key.WitnessPolynomials.get_all.length →
        key.get_labels.length = key.get_all.length
        ∧ zip_view key.get_labels key.get_all
            = zip_view key.PrecomputedPolynomials.get_labels key.PrecomputedPolynomials.get_all
              ++ zip_view key.WitnessPolynomials.get_labels
                  key.WitnessPolynomials.get_all) := by
  refine ⟨rfl, rfl, fun hpre hwit => ⟨?_, ?_⟩⟩
  · show (key.PrecomputedPolynomials.get_labels ++ key.WitnessPolynomials.get_labels).length
      = (key.PrecomputedPolynomials.get_all ++ key.WitnessPolynomials.get_all).length
    rw [List.length_append, List.length_append, hpre, hwit]
  · exact List.zip_append hpre

/-- The union key built from the sample precomputed and witness classes with
circuit size 4: five labels for five polynomials, precomputed first. -/
theorem ProvingKeyAvm_get_all_get_labels_aligned_sample :
    (ProvingKeyAvm_.construct sample_key_env sample_polynomial_env ⟨true, [7]⟩
        sample_precomputed sample_witness 4 3 :
        ProvingKeyAvm_ (List Nat) Nat Nat (Nat × Nat)).get_labels
      = ["q_m", "q_c", "w_l", "w_r", "w_o"]
    ∧ (ProvingKeyAvm_.construct sample_key_env sample_polynomial_env ⟨true, [7]⟩
        sample_precomputed sample_witness 4 3 :
        ProvingKeyAvm_ (List Nat) Nat Nat (Nat × Nat)).get_all.map Ref.addr
      = [100, 124, 200, 224, 248]
    ∧ (ProvingKeyAvm_.construct sample_key_env sample_polynomial_env ⟨true, [7]⟩
        sample_precomputed sample_witness 4 3 :
        ProvingKeyAvm_ (List Nat) Nat Nat (Nat × Nat)).get_labels.length
      = (ProvingKeyAvm_.construct sample_key_env sample_polynomial_env ⟨true, [7]⟩
        sample_precomputed sample_witness 4 3 :
        ProvingKeyAvm_ (List Nat) Nat Nat (Nat × Nat)).get_all.length := by
  have h := ProvingKeyAvm_get_all_get_labels_aligned
    (ProvingKeyAvm_.construct sample_key_env sample_polynomial_env ⟨true, [7]⟩
      sample_precomputed sample_witness 4 3 : ProvingKeyAvm_ (List Nat) Nat Nat (Nat × Nat))
  exact ⟨by decide, by decide, (h.2.2 (by decide) (by decide)).1⟩

/-! ## Construction of the verification key, and outcomes of construction -/

/-- Claim C13: `VerificationKey_(circuit_size, num_public_inputs)` sets the
circuit metadata only: `circuit_size` and `num_public_inputs` are the
arguments, `log_circuit_size` is `floor(log2(circuit_size))` for
`circuit_size > 0`, while `pub_inputs_offset = 0`,
`contains_recursive_proof = false`, the index table is all zero and the stored
commitments are those of the default-constructed base class. -/
theorem VerificationKey_construct_sets_metadata_only {Commitment VCK : Type}
    (AGGREGATION_OBJECT_SIZE : Nat) (base_commitments : List Commitment) (circuit_type : Nat)
    (circuit_size num_public_inputs : Nat) :
    (VerificationKey_.construct AGGREGATION_OBJECT_SIZE base_commitments circuit_type
        circuit_size num_public_inputs : VerificationKey_ Commitment VCK).circuit_size
      = circuit_size
    ∧ (VerificationKey_.construct AGGREGATION_OBJECT_SIZE base_commitments circuit_type
        circuit_size num_public_inputs : VerificationKey_ Commitment VCK).num_public_inputs
      = num_public_inputs
    ∧ (0 < circuit_size →
        (VerificationKey_.construct AGGREGATION_OBJECT_SIZE base_commitments circuit_type
          circuit_size num_public_inputs : VerificationKey_ Commitment VCK).log_circuit_size
        = Nat.log 2 circuit_size)
    ∧ (VerificationKey_.construct AGGREGATION_OBJECT_SIZE base_commitments circuit_type
        circuit_size num_public_inputs : VerificationKey_ Commitment VCK).pub_inputs_offset = 0
    ∧ (VerificationKey_.construct AGGREGATION_OBJECT_SIZE base_commitments circuit_type
        circuit_size num_public_inputs :
        VerificationKey_ Commitment VCK).contains_recursive_proof = false
    ∧ (VerificationKey_.construct AGGREGATION_OBJECT_SIZE base_commitments circuit_type
        circuit_size num_public_inputs :
        VerificationKey_ Commitment VCK).recursive_proof_public_input_indices.length
      = AGGREGATION_OBJECT_SIZE
    ∧ (∀ index ∈ (VerificationKey_.construct AGGREGATION_OBJECT_SIZE base_commitments
        circuit_type circuit_size num_public_inputs :
        VerificationKey_ Commitment VCK).recursive_proof_public_input_indices, index = 0)
    ∧ (VerificationKey_.construct AGGREGATION_OBJECT_SIZE base_commitments circuit_type
        circuit_size num_public_inputs : VerificationKey_ Commitment VCK).get_all
      = base_commitments := by
  refine ⟨rfl, rfl, fun _ => get_msb_eq_log circuit_size, rfl, rfl, ?_, ?_, rfl⟩
  · exact List.length_replicate _ _
  · intro index hindex
    exact List.eq_of_mem_replicate hindex

/-- The key `VerificationKey_(1024, 3)` with a table of 16 indices and two
default commitments: `log_circuit_size = 10`, the table is sixteen zeros and
the commitments are untouched. -/
theorem VerificationKey_construct_sets_metadata_only_sample :
    (VerificationKey_.construct 16 [(0, 0), (0, 0)] 0 1024 3 :
        VerificationKey_ (Nat × Nat) Unit).log_circuit_size = 10
    ∧ (VerificationKey_.construct 16 [(0, 0), (0, 0)] 0 1024 3 :
        VerificationKey_ (Nat × Nat) Unit).recursive_proof_public_input_indices
      = [0, 0, 0, 0, 0, 0, 0, 0, 0, 0, 0, 0, 0, 0, 0, 0]
    ∧ (VerificationKey_.construct 16 [(0, 0), (0, 0)] 0 1024 3 :
        VerificationKey_ (Nat × Nat) Unit).get_all = [(0, 0), (0, 0)] := by
  have h := @VerificationKey_construct_sets_metadata_only (Nat × Nat) Unit 16 [(0, 0), (0, 0)]
    0 1024 3
  exact ⟨by decide, by decide, h.2.2.2.2.2.2.2⟩

/-- The outcome of the proving-key constructor is a precondition violation
exactly when one of the two constructors it calls rejects its arguments. -/
theorem ProvingKey_construct_result_cases {FF CK ED : Type} (env : KeyEnv CK ED)
    (checks : ExternalChecks) (mem : Indeterminate) (circuit_size num_public_inputs : Nat) :
    ((ProvingKey_.construct_result env checks mem circuit_size num_public_inputs :
        ConstructionResult (ProvingKey_ FF CK ED)) = ConstructionResult.precondition_violation
      ↔ (checks.commitment_key_rejects ((circuit_size + 1) % 2 ^ env.size_bits) = true
          ∨ checks.evaluation_domain_rejects circuit_size circuit_size = true))
    ∧ (checks.commitment_key_rejects ((circuit_size + 1) % 2 ^ env.size_bits) = false →
        checks.evaluation_domain_rejects circuit_size circuit_size = false →
        (ProvingKey_.construct_result env checks mem circuit_size num_public_inputs :
          ConstructionResult (ProvingKey_ FF CK ED))
        = ConstructionResult.returned
            (ProvingKey_.construct env mem circuit_size num_public_inputs)) := by
  unfold ProvingKey_.construct_result
  cases hck : checks.commitment_key_rejects ((circuit_size + 1) % 2 ^ env.size_bits) <;>
    cases hed : checks.evaluation_domain_rejects circuit_size circuit_size <;> simp

/-- The outcome of the constructor of the union proving key is a precondition
violation exactly when one of the two constructors it calls rejects its
arguments. -/
theorem ProvingKeyAvm_construct_result_cases {P FF CK ED : Type} (env : KeyEnv CK ED)
    (checks : ExternalChecks) (poly_env : PolynomialEnv P) (mem : Indeterminate)
    (precomputed witness : Entities P) (circuit_size num_public_inputs : Nat) :
    ((ProvingKeyAvm_.construct_result env checks poly_env mem precomputed witness circuit_size
        num_public_inputs : ConstructionResult (ProvingKeyAvm_ P FF CK ED))
        = ConstructionResult.precondition_violation
      ↔ (checks.commitment_key_rejects ((circuit_size + 1) % 2 ^ env.size_bits) = true
          ∨ checks.evaluation_domain_rejects circuit_size circuit_size = true))
    ∧ (checks.commitment_key_rejects ((circuit_size + 1) % 2 ^ env.size_bits) = false →
        checks.evaluation_domain_rejects circuit_size circuit_size = false →
        (ProvingKeyAvm_.construct_result env checks poly_env mem precomputed witness
          circuit_size num_public_inputs : ConstructionResult (ProvingKeyAvm_ P FF CK ED))
        = ConstructionResult.returned
            (ProvingKeyAvm_.construct env poly_env mem precomputed witness circuit_size
              num_public_inputs)) := by
  unfold ProvingKeyAvm_.construct_result
  cases hck : checks.commitment_key_rejects ((circuit_size + 1) % 2 ^ env.size_bits) <;>
    cases hed : checks.evaluation_domain_rejects circuit_size circuit_size <;> simp

/-- Claim C14 fails: `VerificationKey_(0, 3)` returns a key with
`circuit_size = 0`; and when the constructors of the commitment key and of the
evaluation domain accept their arguments,
`ProvingKey_(0, 3)`, `ProvingKey_(3, 3)`, `ProvingKeyAvm_(0, 3)` and
`ProvingKeyAvm_(3, 3)` return keys computed from these sizes (for size 3 with
`log_circuit_size = 1`); none ends with a precondition violation. -/
theorem constructors_accept_malformed_sizes :
    (VerificationKey_.construct_result 16 [(0, 0)] 0 0 3 :
        ConstructionResult (VerificationKey_ (Nat × Nat) Unit))
      ≠ ConstructionResult.precondition_violation
    ∧ (VerificationKey_.construct_result 16 [(0, 0)] 0 0 3 :
        ConstructionResult (VerificationKey_ (Nat × Nat) Unit))
      = ConstructionResult.returned (VerificationKey_.construct 16 [(0, 0)] 0 0 3)
    ∧ (VerificationKey_.construct 16 [(0, 0)] 0 0 3 :
        VerificationKey_ (Nat × Nat) Unit).circuit_size = 0
    ∧ (ProvingKey_.construct_result sample_key_env sample_no_checks ⟨false, []⟩ 0 3 :
        ConstructionResult (ProvingKey_ Nat Nat (Nat × Nat)))
      = ConstructionResult.returned (ProvingKey_.construct sample_key_env ⟨false, []⟩ 0 3)
    ∧ (ProvingKey_.construct_result sample_key_env sample_no_checks ⟨false, []⟩ 3 3 :
        ConstructionResult (ProvingKey_ Nat Nat (Nat × Nat)))
      = ConstructionResult.returned (ProvingKey_.construct sample_key_env ⟨false, []⟩ 3 3)
    ∧ (ProvingKey_.construct sample_key_env ⟨false, []⟩ 3 3 :
        ProvingKey_ Nat Nat (Nat × Nat)).circuit_size = 3
    ∧ (ProvingKey_.construct sample_key_env ⟨false, []⟩ 3 3 :
        ProvingKey_ Nat Nat (Nat × Nat)).log_circuit_size = 1
    ∧ (ProvingKeyAvm_.construct_result sample_key_env sample_no_checks sample_polynomial_env
        ⟨false, []⟩ sample_precomputed sample_witness 0 3 :
        ConstructionResult (ProvingKeyAvm_ (List Nat) Nat Nat (Nat × Nat)))
      = ConstructionResult.returned
          (ProvingKeyAvm_.construct sample_key_env sample_polynomial_env ⟨false, []⟩
            sample_precomputed sample_witness 0 3)
    ∧ (ProvingKeyAvm_.construct_result sample_key_env sample_no_checks sample_polynomial_env
        ⟨false, []⟩ sample_precomputed sample_witness 3 3 :
        ConstructionResult (ProvingKeyAvm_ (List Nat) Nat Nat (Nat × Nat)))
      = ConstructionResult.returned
          (ProvingKeyAvm_.construct sample_key_env sample_polynomial_env ⟨false, []⟩
            sample_precomputed sample_witness 3 3) := by
  refine ⟨?_, rfl, rfl, rfl, rfl, rfl, by decide, rfl, rfl⟩
  intro h
  cases h

/-- Claim C14, amended: the constructors check nothing themselves.
`VerificationKey_(circuit_size, num_public_inputs)` returns a key for every
`circuit_size`, zero included.  `ProvingKey_` and `ProvingKeyAvm_` end with a
precondition violation exactly when the constructor of the commitment key
(called with `circuit_size + 1`) or of the evaluation domain (called with
`circuit_size`, `circuit_size`) rejects its arguments; when both accept, a key
computed from the given size is returned, whether or not the size is zero or a
power of two: its `circuit_size` is the argument and its `log_circuit_size` is
`get_msb(circuit_size)`. -/
theorem constructors_validate_nothing_themselves {Commitment VCK P FF CK ED : Type}
    (AGGREGATION_OBJECT_SIZE : Nat) (base_commitments : List Commitment) (circuit_type : Nat)
    (env : KeyEnv CK ED) (checks : ExternalChecks) (poly_env : PolynomialEnv P)
    (mem : Indeterminate) (precomputed witness : Entities P)
    (circuit_size num_public_inputs : Nat) :
    (VerificationKey_.construct_result AGGREGATION_OBJECT_SIZE base_commitments circuit_type
        circuit_size num_public_inputs : ConstructionResult (VerificationKey_ Commitment VCK))
      = ConstructionResult.returned
          (VerificationKey_.construct AGGREGATION_OBJECT_SIZE base_commitments circuit_type
            circuit_size num_public_inputs)
    ∧ (VerificationKey_.construct AGGREGATION_OBJECT_SIZE base_commitments circuit_type
        circuit_size num_public_inputs : VerificationKey_ Commitment VCK).circuit_size
      = circuit_size
    ∧ ((ProvingKey_.construct_result env checks mem circuit_size num_public_inputs :
          ConstructionResult (ProvingKey_ FF CK ED)) = ConstructionResult.precondition_violation
        ↔ (checks.commitment_key_rejects ((circuit_size + 1) % 2 ^ env.size_bits) = true
            ∨ checks.evaluation_domain_rejects circuit_size circuit_size = true))
    ∧ ((ProvingKeyAvm_.construct_result env checks poly_env mem precomputed witness
          circuit_size num_public_inputs : ConstructionResult (ProvingKeyAvm_ P FF CK ED))
          = ConstructionResult.precondition_violation
        ↔ (checks.commitment_key_rejects ((circuit_size + 1) % 2 ^ env.size_bits) = true
            ∨ checks.evaluation_domain_rejects circuit_size circuit_size = true))
    ∧ (checks.commitment_key_rejects ((circuit_size + 1) % 2 ^ env.size_bits) = false →
        checks.evaluation_domain_rejects circuit_size circuit_size = false →
        (ProvingKey_.construct_result env checks mem circuit_size num_public_inputs :
            ConstructionResult (ProvingKey_ FF CK ED))
          = ConstructionResult.returned
              (ProvingKey_.construct env mem circuit_size num_public_inputs)
        ∧ (ProvingKeyAvm_.construct_result env checks poly_env mem precomputed witness
            circuit_size num_public_inputs : ConstructionResult (ProvingKeyAvm_ P FF CK ED))
          = ConstructionResult.returned
              (ProvingKeyAvm_.construct env poly_env mem precomputed witness circuit_size
                num_public_inputs))
    ∧ (ProvingKey_.construct env mem circuit_size num_public_inputs :
        ProvingKey_ FF CK ED).circuit_size = circuit_size
    ∧ (ProvingKey_.construct env mem circuit_size num_public_inputs :
        ProvingKey_ FF CK ED).log_circuit_size = get_msb circuit_size
    ∧ (ProvingKeyAvm_.construct env poly_env mem precomputed witness circuit_size
        num_public_inputs : ProvingKeyAvm_ P FF CK ED).circuit_size = circuit_size
    ∧ (ProvingKeyAvm_.construct env poly_env mem precomputed witness circuit_size
        num_public_inputs : ProvingKeyAvm_ P FF CK ED).log_circuit_size
      = get_msb circuit_size := by
  have hpk := @ProvingKey_construct_result_cases FF CK ED env checks mem circuit_size
    num_public_inputs
  have havm := @ProvingKeyAvm_construct_result_cases P FF CK ED env checks poly_env mem
    precomputed witness circuit_size num_public_inputs
  exact ⟨rfl, rfl, hpk.1, havm.1, fun hck hed => ⟨hpk.2 hck hed, havm.2 hck hed⟩, rfl,
    rfl, rfl, rfl⟩

/-! ## Capability classification -/

/-- The concept `IsAnyOf` holds exactly for the types of the list. -/
theorem IsAnyOf_iff_mem (T : FlavorType) (U : List FlavorType) :
    IsAnyOf T U = true ↔ T ∈ U := by
  induction U with
  | nil => simp [IsAnyOf]
  | cons V rest ih => simp [IsAnyOf, same_as, ih]

/-- The concept `IsAnyOf` fails exactly for the types outside the list. -/
theorem IsAnyOf_eq_false_iff (T : FlavorType) (U : List FlavorType) :
    IsAnyOf T U = false ↔ T ∉ U := by
  rw [← IsAnyOf_iff_mem, Bool.not_eq_true]

/-- Claim C15: each capability predicate holds for a type `T` exactly when `T`
is one of the types of that predicate's list; so a type that is none of the
sixteen types that occur in the lists fails all ten predicates. -/
theorem capability_predicates_are_list_membership (T : FlavorType) :
    (IsPlonkFlavor T = true
      ↔ T ∈ [FlavorType.plonk_flavor_Standard, FlavorType.plonk_flavor_Ultra])
    ∧ (IsUltraPlonkFlavor T = true
      ↔ T ∈ [FlavorType.plonk_flavor_Ultra, FlavorType.UltraKeccakFlavor])
    ∧ (IsUltraPlonkOrHonk T = true
      ↔ T ∈ [FlavorType.plonk_flavor_Ultra, FlavorType.UltraFlavor,
          FlavorType.UltraKeccakFlavor, FlavorType.MegaFlavor])
    ∧ (IsHonkFlavor T = true
      ↔ T ∈ [FlavorType.UltraFlavor, FlavorType.UltraKeccakFlavor, FlavorType.MegaFlavor])
    ∧ (IsUltraFlavor T = true
      ↔ T ∈ [FlavorType.UltraFlavor, FlavorType.UltraKeccakFlavor, FlavorType.MegaFlavor])
    ∧ (IsGoblinFlavor T = true
      ↔ T ∈ [FlavorType.MegaFlavor,
          FlavorType.MegaRecursiveFlavor_ BuilderType.UltraCircuitBuilder,
          FlavorType.MegaRecursiveFlavor_ BuilderType.MegaCircuitBuilder,
          FlavorType.MegaRecursiveFlavor_ BuilderType.CircuitSimulatorBN254])
    ∧ (IsRecursiveFlavor T = true
      ↔ T ∈ [FlavorType.UltraRecursiveFlavor_ BuilderType.UltraCircuitBuilder,
          FlavorType.UltraRecursiveFlavor_ BuilderType.MegaCircuitBuilder,
          FlavorType.UltraRecursiveFlavor_ BuilderType.CircuitSimulatorBN254,
          FlavorType.MegaRecursiveFlavor_ BuilderType.UltraCircuitBuilder,
          FlavorType.MegaRecursiveFlavor_ BuilderType.MegaCircuitBuilder,
          FlavorType.MegaRecursiveFlavor_ BuilderType.CircuitSimulatorBN254,
          FlavorType.TranslatorRecursiveFlavor_ BuilderType.UltraCircuitBuilder,
          FlavorType.TranslatorRecursiveFlavor_ BuilderType.MegaCircuitBuilder,
          FlavorType.TranslatorRecursiveFlavor_ BuilderType.CircuitSimulatorBN254,
          FlavorType.ECCVMRecursiveFlavor_ BuilderType.UltraCircuitBuilder])
    ∧ (IsECCVMRecursiveFlavor T = true
      ↔ T ∈ [FlavorType.ECCVMRecursiveFlavor_ BuilderType.UltraCircuitBuilder])
    ∧ (IsGrumpkinFlavor T = true ↔ T ∈ [FlavorType.ECCVMFlavor])
    ∧ (IsFoldingFlavor T = true
      ↔ T ∈ [FlavorType.UltraFlavor,
          FlavorType.UltraKeccakFlavor,
          FlavorType.MegaFlavor,
          FlavorType.UltraRecursiveFlavor_ BuilderType.UltraCircuitBuilder,
          FlavorType.UltraRecursiveFlavor_ BuilderType.MegaCircuitBuilder,
          FlavorType.UltraRecursiveFlavor_ BuilderType.CircuitSimulatorBN254,
          FlavorType.MegaRecursiveFlavor_ BuilderType.UltraCircuitBuilder,
          FlavorType.MegaRecursiveFlavor_ BuilderType.MegaCircuitBuilder,
          FlavorType.MegaRecursiveFlavor_ BuilderType.CircuitSimulatorBN254])
    ∧ (T ∉ [FlavorType.plonk_flavor_Standard, FlavorType.plonk_flavor_Ultra,
          FlavorType.UltraFlavor, FlavorType.UltraKeccakFlavor, FlavorType.MegaFlavor,
          FlavorType.ECCVMFlavor,
          FlavorType.UltraRecursiveFlavor_ BuilderType.UltraCircuitBuilder,
          FlavorType.UltraRecursiveFlavor_ BuilderType.MegaCircuitBuilder,
          FlavorType.UltraRecursiveFlavor_ BuilderType.CircuitSimulatorBN254,
          FlavorType.MegaRecursiveFlavor_ BuilderType.UltraCircuitBuilder,
          FlavorType.MegaRecursiveFlavor_ BuilderType.MegaCircuitBuilder,
          FlavorType.MegaRecursiveFlavor_ BuilderType.CircuitSimulatorBN254,
          FlavorType.TranslatorRecursiveFlavor_ BuilderType.UltraCircuitBuilder,
          FlavorType.TranslatorRecursiveFlavor_ BuilderType.MegaCircuitBuilder,
          FlavorType.TranslatorRecursiveFlavor_ BuilderType.CircuitSimulatorBN254,
          FlavorType.ECCVMRecursiveFlavor_ BuilderType.UltraCircuitBuilder] →
        IsPlonkFlavor T = false ∧ IsUltraPlonkFlavor T = false
        ∧ IsUltraPlonkOrHonk T = false ∧ IsHonkFlavor T = false ∧ IsUltraFlavor T = false
        ∧ IsGoblinFlavor T = false ∧ IsRecursiveFlavor T = false
        ∧ IsECCVMRecursiveFlavor T = false ∧ IsGrumpkinFlavor T = false
        ∧ IsFoldingFlavor T = false) := by
  refine ⟨IsAnyOf_iff_mem _ _, IsAnyOf_iff_mem _ _, IsAnyOf_iff_mem _ _, IsAnyOf_iff_mem _ _,
    IsAnyOf_iff_mem _ _, IsAnyOf_iff_mem _ _, IsAnyOf_iff_mem _ _, IsAnyOf_iff_mem _ _,
    IsAnyOf_iff_mem _ _, IsAnyOf_iff_mem _ _, fun h => ?_⟩
  simp only [List.mem_cons, List.mem_singleton, List.not_mem_nil, or_false, not_or] at h
  simp only [IsPlonkFlavor, IsUltraPlonkFlavor, IsUltraPlonkOrHonk, IsHonkFlavor, IsUltraFlavor,
    IsGoblinFlavor, IsRecursiveFlavor, IsECCVMRecursiveFlavor, IsGrumpkinFlavor,
    IsFoldingFlavor, IsAnyOf_eq_false_iff, List.mem_cons, List.mem_singleton,
    List.not_mem_nil, or_false, not_or]
  tauto

/-- The types `TranslatorFlavor`, `MegaRecursiveFlavor_` over an unlisted
builder and an unrelated type are in none of the lists and fail all ten
predicates, while `MegaFlavor` satisfies `IsGoblinFlavor`. -/
theorem capability_predicates_are_list_membership_sample :
    (IsPlonkFlavor FlavorType.TranslatorFlavor = false
      ∧ IsUltraPlonkFlavor FlavorType.TranslatorFlavor = false
      ∧ IsUltraPlonkOrHonk FlavorType.TranslatorFlavor = false
      ∧ IsHonkFlavor FlavorType.TranslatorFlavor = false
      ∧ IsUltraFlavor FlavorType.TranslatorFlavor = false
      ∧ IsGoblinFlavor FlavorType.TranslatorFlavor = false
      ∧ IsRecursiveFlavor FlavorType.TranslatorFlavor = false
      ∧ IsECCVMRecursiveFlavor FlavorType.TranslatorFlavor = false
      ∧ IsGrumpkinFlavor FlavorType.TranslatorFlavor = false
      ∧ IsFoldingFlavor FlavorType.TranslatorFlavor = false)
    ∧ IsGoblinFlavor (FlavorType.MegaRecursiveFlavor_ (BuilderType.other_builder 0)) = false
    ∧ IsRecursiveFlavor (FlavorType.other 0) = false
    ∧ IsGoblinFlavor FlavorType.MegaFlavor = true :=
  ⟨(capability_predicates_are_list_membership FlavorType.TranslatorFlavor).2.2.2.2.2.2.2.2.2.2
      (by decide),
    by decide, by decide, by decide⟩

/-! ## Verification key: determinism and sensitivity of the wire format -/

/-- The serialisation is the metadata part followed by the commitment part. -/
theorem to_field_elements_split {FF Commitment VCK : Type}
    (convert : convert_to_bn254_frs FF Commitment) (vk : VerificationKey_ Commitment VCK) :
    vk.to_field_elements convert
      = (convert.uint64 vk.circuit_size
          ++ convert.uint64 vk.num_public_inputs
          ++ convert.uint64 vk.pub_inputs_offset
          ++ convert.bool vk.contains_recursive_proof
          ++ convert.indices vk.recursive_proof_public_input_indices)
        ++ (vk.get_all.map convert.commitment).flatten := by
  unfold VerificationKey_.to_field_elements
  simp only [foldl_insert_at_end]
  simp only [insert_at_end, List.nil_append]

/-- Claim C16: two verification keys that agree on `circuit_size`,
`num_public_inputs`, `pub_inputs_offset`, `contains_recursive_proof`, the
recursive-proof index table and the sequence of commitments have the same
`to_field_elements()` and the same `hash()`, whatever the rest of their state
(`log_circuit_size`, `circuit_type`, the commitment-scheme verification key,
even its type). -/
theorem to_field_elements_and_hash_deterministic {FF Commitment VCK VCK2 : Type}
    (env : HashEnv FF) (convert : convert_to_bn254_frs FF Commitment)
    (vk : VerificationKey_ Commitment VCK) (vk2 : VerificationKey_ Commitment VCK2)
    (hsize : vk.circuit_size = vk2.circuit_size)
    (hinputs : vk.num_public_inputs = vk2.num_public_inputs)
    (hoffset : vk.pub_inputs_offset = vk2.pub_inputs_offset)
    (hrecursive : vk.contains_recursive_proof = vk2.contains_recursive_proof)
    (hindices : vk.recursive_proof_public_input_indices
      = vk2.recursive_proof_public_input_indices)
    (hcommitments : vk.get_all = vk2.get_all) :
    vk.to_field_elements convert = vk2.to_field_elements convert
    ∧ vk.hash env convert = vk2.hash env convert := by
  have hfe : vk.to_field_elements convert = vk2.to_field_elements convert := by
    rw [to_field_elements_split, to_field_elements_split, hsize, hinputs, hoffset, hrecursive,
      hindices, hcommitments]
  refine ⟨hfe, ?_⟩
  unfold VerificationKey_.hash VerificationKey_.hash_to_hash
  rw [hfe]

/-- The two sample keys differ in `log_circuit_size`, `circuit_type` and the
commitment-scheme key, and have the same serialisation and the same hash for
every digest function. -/
theorem to_field_elements_and_hash_deterministic_sample :
    sample_vk.log_circuit_size ≠ sample_vk_other_state.log_circuit_size
    ∧ sample_vk.pcs_verification_key ≠ sample_vk_other_state.pcs_verification_key
    ∧ sample_vk.pub_inputs_offset = 0
    ∧ sample_vk.contains_recursive_proof = false
    ∧ sample_vk.to_field_elements sample_convert
        = sample_vk_other_state.to_field_elements sample_convert
    ∧ (∀ sha256 from_buffer,
        sample_vk.hash (sample_env sha256 from_buffer) sample_convert
          = sample_vk_other_state.hash (sample_env sha256 from_buffer) sample_convert) :=
  ⟨by decide, by decide, rfl, rfl,
    (to_field_elements_and_hash_deterministic (sample_env id List.length) sample_convert
      sample_vk sample_vk_other_state rfl rfl rfl rfl rfl rfl).1,
    fun sha256 from_buffer =>
      (to_field_elements_and_hash_deterministic (sample_env sha256 from_buffer) sample_convert
        sample_vk sample_vk_other_state rfl rfl rfl rfl rfl rfl).2⟩

/-- Claim C20: when two verification keys have the same metadata and the same
commitments except for one, and the conversion of a commitment is injective
with a fixed output length and the byte serialisation is injective, then their
`to_field_elements()` differ and `hash()` gives different byte strings to the
digest; so their hashes can be equal only if the digest followed by
`from_buffer` takes the same value on two different byte strings. -/
theorem changing_one_commitment_changes_hash_input {FF Commitment VCK : Type}
    (env : HashEnv FF) (convert : convert_to_bn254_frs FF Commitment)
    (vk vk2 : VerificationKey_ Commitment VCK)
    (before after : List Commitment) (c c2 : Commitment)
    (hsize : vk.circuit_size = vk2.circuit_size)
    (hinputs : vk.num_public_inputs = vk2.num_public_inputs)
    (hoffset : vk.pub_inputs_offset = vk2.pub_inputs_offset)
    (hrecursive : vk.contains_recursive_proof = vk2.contains_recursive_proof)
    (hindices : vk.recursive_proof_public_input_indices
      = vk2.recursive_proof_public_input_indices)
    (hall : vk.get_all = before ++ c :: after)
    (hall2 : vk2.get_all = before ++ c2 :: after)
    (hchanged : c ≠ c2)
    (hinjective : Function.Injective convert.commitment)
    (hlength : ∃ n, ∀ x, (convert.commitment x).length = n)
    (hbuffer : Function.Injective env.to_buffer) :
    vk.to_field_elements convert ≠ vk2.to_field_elements convert
    ∧ vk.hash_to_hash env convert ≠ vk2.hash_to_hash env convert
    ∧ (vk.hash env convert = vk2.hash env convert →
        ∃ a b : List Nat, a ≠ b
          ∧ env.from_buffer (env.sha256 a) = env.from_buffer (env.sha256 b)) := by
  have hfe : vk.to_field_elements convert ≠ vk2.to_field_elements convert := by
    intro h
    rw [to_field_elements_split, to_field_elements_split, hsize, hinputs, hoffset, hrecursive,
      hindices, hall, hall2] at h
    have h1 := List.append_cancel_left h
    simp only [List.map_append, List.map_cons, List.flatten_append, List.flatten_cons] at h1
    have h2 := List.append_cancel_right (List.append_cancel_left h1)
    exact hchanged (hinjective h2)
  have hcount : (vk.to_field_elements convert).length
      = (vk2.to_field_elements convert).length := by
    obtain ⟨n, hn⟩ := hlength
    rw [to_field_elements_split, to_field_elements_split, hsize, hinputs, hoffset, hrecursive,
      hindices, hall, hall2]
    simp only [List.map_append, List.map_cons, List.flatten_append, List.flatten_cons,
      List.length_append, hn]
  have hinput : vk.hash_to_hash env convert ≠ vk2.hash_to_hash env convert := by
    intro h
    unfold VerificationKey_.hash_to_hash at h
    simp only [insert_at_end, zero_filled_vector] at h
    rw [hcount] at h
    exact hfe (hbuffer (List.append_cancel_left h))
  exact ⟨hfe, hinput, fun h => ⟨_, _, hinput, h⟩⟩

/-- The key `byte_vk_changed` is `byte_vk` with the second of three commitments
changed from `(5, 6)` to `(5, 8)`: the serialisations differ and the digest
receives different bytes. -/
theorem changing_one_commitment_changes_hash_input_sample :
    byte_vk.get_all = [(7, 9)] ++ (5, 6) :: [(3, 4)]
    ∧ byte_vk_changed.get_all = [(7, 9)] ++ (5, 8) :: [(3, 4)]
    ∧ byte_vk.to_field_elements byte_convert ≠ byte_vk_changed.to_field_elements byte_convert
    ∧ byte_vk.hash_to_hash (byte_env id List.length) byte_convert
        ≠ byte_vk_changed.hash_to_hash (byte_env id List.length) byte_convert := by
  have hinjective : Function.Injective byte_convert.commitment := by
    intro x y h
    have h' : [x.1, x.2] = [y.1, y.2] := h
    simp only [List.cons.injEq, and_true] at h'
    exact Prod.ext h'.1 h'.2
  have hbuffer : Function.Injective (byte_env id List.length).to_buffer :=
    List.map_injective_iff.mpr Fin.val_injective
  have h := changing_one_commitment_changes_hash_input (byte_env id List.length) byte_convert
    byte_vk byte_vk_changed [(7, 9)] [(3, 4)] (5, 6) (5, 8) rfl rfl rfl rfl rfl rfl rfl
    (by decide) hinjective ⟨2, fun _ => rfl⟩ hbuffer
  exact ⟨rfl, rfl, h.1, h.2.1⟩

/-! ## Containers shaped by the relations -/

/-- From index `Index` on, the sumcheck container has one entry for each of the
relations at positions `Index`, `Index + 1`, ..., the relation's own type. -/
theorem create_sumcheck_tuple_of_tuples_of_univariates_drop {Shape : Type}
    (Tuple : List (RelationDescriptor Shape)) (n : Nat) :
    ∀ Index, Tuple.length - Index = n →
      create_sumcheck_tuple_of_tuples_of_univariates Tuple Index
        = (Tuple.drop Index).map (fun r => r.SumcheckTupleOfUnivariatesOverSubrelations) := by
  induction n with
  | zero =>
    intro Index h
    have hge : Index ≥ Tuple.length := by omega
    rw [create_sumcheck_tuple_of_tuples_of_univariates, dif_pos hge,
      List.drop_of_length_le hge]
    rfl
  | succ n ih =>
    intro Index h
    have hlt : Index < Tuple.length := by omega
    rw [create_sumcheck_tuple_of_tuples_of_univariates, dif_neg (Nat.not_le.mpr hlt)]
    simp only
    rw [ih (Index + 1) (by omega), List.drop_eq_getElem_cons hlt]
    simp only [List.get_eq_getElem, List.map_cons, List.singleton_append]

/-- From index `Index` on, the container of value arrays has one entry for each
of the relations at positions `Index`, `Index + 1`, ..., the relation's own
type. -/
theorem create_tuple_of_arrays_of_values_drop {Shape : Type}
    (Tuple : List (RelationDescriptor Shape)) (n : Nat) :
    ∀ Index, Tuple.length - Index = n →
      create_tuple_of_arrays_of_values Tuple Index
        = (Tuple.drop Index).map (fun r => r.SumcheckArrayOfValuesOverSubrelations) := by
  induction n with
  | zero =>
    intro Index h
    have hge : Index ≥ Tuple.length := by omega
    rw [create_tuple_of_arrays_of_values, dif_pos hge, List.drop_of_length_le hge]
    rfl
  | succ n ih =>
    intro Index h
    have hlt : Index < Tuple.length := by omega
    rw [create_tuple_of_arrays_of_values, dif_neg (Nat.not_le.mpr hlt)]
    simp only
    rw [ih (Index + 1) (by omega), List.drop_eq_getElem_cons hlt]
    simp only [List.get_eq_getElem, List.map_cons, List.singleton_append]

/-- From index `Index` on, the Protogalaxy container has one entry for each of
the relations at positions `Index`, `Index + 1`, ..., chosen by the flag. -/
theorem create_protogalaxy_tuple_of_tuples_of_univariates_drop {Shape : Type}
    (Tuple : List (RelationDescriptor Shape)) (NUM_INSTANCES : Nat) (optimised : Bool)
    (n : Nat) :
    ∀ Index, Tuple.length - Index = n →
      create_protogalaxy_tuple_of_tuples_of_univariates Tuple NUM_INSTANCES optimised Index
        = (Tuple.drop Index).map
            (fun r =>
              if optimised then
                r.OptimisedProtogalaxyTupleOfUnivariatesOverSubrelations NUM_INSTANCES
              else r.ProtogalaxyTupleOfUnivariatesOverSubrelations NUM_INSTANCES) := by
  induction n with
  | zero =>
    intro Index h
    have hge : Index ≥ Tuple.length := by omega
    rw [create_protogalaxy_tuple_of_tuples_of_univariates, dif_pos hge,
      List.drop_of_length_le hge]
    rfl
  | succ n ih =>
    intro Index h
    have hlt : Index < Tuple.length := by omega
    rw [create_protogalaxy_tuple_of_tuples_of_univariates, dif_neg (Nat.not_le.mpr hlt)]
    simp only
    rw [ih (Index + 1) (by omega), List.drop_eq_getElem_cons hlt]
    simp only [List.get_eq_getElem, List.map_cons, List.singleton_append]

/-- Claim C17: `create_sumcheck_tuple_of_tuples_of_univariates` and
`create_tuple_of_arrays_of_values` return a container with exactly one entry
per relation, in relation order; the entry at index `i` is the declared type of
the relation at index `i` (`SumcheckTupleOfUnivariatesOverSubrelations`, resp.
`SumcheckArrayOfValuesOverSubrelations`) and of nothing else; the empty list
gives the empty container. -/
theorem create_sumcheck_containers_per_relation {Shape : Type}
    (Tuple : List (RelationDescriptor Shape)) :
    create_sumcheck_tuple_of_tuples_of_univariates Tuple 0
        = Tuple.map (fun r => r.SumcheckTupleOfUnivariatesOverSubrelations)
    ∧ create_tuple_of_arrays_of_values Tuple 0
        = Tuple.map (fun r => r.SumcheckArrayOfValuesOverSubrelations)
    ∧ (create_sumcheck_tuple_of_tuples_of_univariates Tuple 0).length = Tuple.length
    ∧ (create_tuple_of_arrays_of_values Tuple 0).length = Tuple.length
    ∧ (∀ i : Nat,
        (create_sumcheck_tuple_of_tuples_of_univariates Tuple 0)[i]?
          = Tuple[i]?.map (fun r => r.SumcheckTupleOfUnivariatesOverSubrelations))
    ∧ (∀ i : Nat,
        (create_tuple_of_arrays_of_values Tuple 0)[i]?
          = Tuple[i]?.map (fun r => r.SumcheckArrayOfValuesOverSubrelations))
    ∧ create_sumcheck_tuple_of_tuples_of_univariates ([] : List (RelationDescriptor Shape)) 0
        = []
    ∧ create_tuple_of_arrays_of_values ([] : List (RelationDescriptor Shape)) 0 = [] := by
  have hs : ∀ T : List (RelationDescriptor Shape),
      create_sumcheck_tuple_of_tuples_of_univariates T 0
        = T.map (fun r => r.SumcheckTupleOfUnivariatesOverSubrelations) := fun T => by
    rw [create_sumcheck_tuple_of_tuples_of_univariates_drop T T.length 0 rfl, List.drop_zero]
  have hv : ∀ T : List (RelationDescriptor Shape),
      create_tuple_of_arrays_of_values T 0
        = T.map (fun r => r.SumcheckArrayOfValuesOverSubrelations) := fun T => by
    rw [create_tuple_of_arrays_of_values_drop T T.length 0 rfl, List.drop_zero]
  refine ⟨hs Tuple, hv Tuple, ?_, ?_, fun i => ?_, fun i => ?_, ?_, ?_⟩
  · rw [hs, List.length_map]
  · rw [hv, List.length_map]
  · rw [hs, List.getElem?_map]
  · rw [hv, List.getElem?_map]
  · rw [hs]; rfl
  · rw [hv]; rfl

/-- Three relations with partial lengths 3, 6, 5 and with 2, 1, 3 subrelations:
the sumcheck container has the types numbered 3, 6, 5 and the container of
value arrays the types numbered 2, 1, 3, whatever the maximum length is. -/
theorem create_sumcheck_containers_per_relation_sample :
    create_sumcheck_tuple_of_tuples_of_univariates
      [sample_relation 3 4 [3, 2], sample_relation 6 7 [6], sample_relation 5 9 [5, 5, 1]] 0
      = [3, 6, 5]
    ∧ create_tuple_of_arrays_of_values
      [sample_relation 3 4 [3, 2], sample_relation 6 7 [6], sample_relation 5 9 [5, 5, 1]] 0
      = [2, 1, 3] := by
  have h := create_sumcheck_containers_per_relation
    [sample_relation 3 4 [3, 2], sample_relation 6 7 [6], sample_relation 5 9 [5, 5, 1]]
  exact ⟨h.1.trans rfl, h.2.1.trans rfl⟩

/-- Claim C18: for every `NUM_INSTANCES` and both values of the flag,
`create_protogalaxy_tuple_of_tuples_of_univariates` returns a container with
exactly one entry per relation, in relation order; the entry at index `i` is
the type `OptimisedProtogalaxyTupleOfUnivariatesOverSubrelations<NUM_INSTANCES>`
of the relation at index `i` when `optimised` is true and its
`ProtogalaxyTupleOfUnivariatesOverSubrelations<NUM_INSTANCES>` when `optimised`
is false, with the same flag and the same `NUM_INSTANCES` for every relation. -/
theorem create_protogalaxy_container_per_relation {Shape : Type}
    (Tuple : List (RelationDescriptor Shape)) (NUM_INSTANCES : Nat) :
    create_protogalaxy_tuple_of_tuples_of_univariates Tuple NUM_INSTANCES true 0
        = Tuple.map
            (fun r => r.OptimisedProtogalaxyTupleOfUnivariatesOverSubrelations NUM_INSTANCES)
    ∧ create_protogalaxy_tuple_of_tuples_of_univariates Tuple NUM_INSTANCES false 0
        = Tuple.map (fun r => r.ProtogalaxyTupleOfUnivariatesOverSubrelations NUM_INSTANCES)
    ∧ (∀ optimised : Bool,
        (create_protogalaxy_tuple_of_tuples_of_univariates Tuple NUM_INSTANCES optimised
          0).length = Tuple.length)
    ∧ (∀ i : Nat,
        (create_protogalaxy_tuple_of_tuples_of_univariates Tuple NUM_INSTANCES true 0)[i]?
          = Tuple[i]?.map
              (fun r => r.OptimisedProtogalaxyTupleOfUnivariatesOverSubrelations NUM_INSTANCES))
    ∧ (∀ i : Nat,
        (create_protogalaxy_tuple_of_tuples_of_univariates Tuple NUM_INSTANCES false 0)[i]?
          = Tuple[i]?.map
              (fun r => r.ProtogalaxyTupleOfUnivariatesOverSubrelations NUM_INSTANCES)) := by
  have hp : ∀ optimised : Bool,
      create_protogalaxy_tuple_of_tuples_of_univariates Tuple NUM_INSTANCES optimised 0
        = Tuple.map
            (fun r =>
              if optimised then
                r.OptimisedProtogalaxyTupleOfUnivariatesOverSubrelations NUM_INSTANCES
              else r.ProtogalaxyTupleOfUnivariatesOverSubrelations NUM_INSTANCES) :=
    fun optimised => by
      rw [create_protogalaxy_tuple_of_tuples_of_univariates_drop Tuple NUM_INSTANCES optimised
        Tuple.length 0 rfl, List.drop_zero]
  have ht := hp true
  have hf := hp false
  simp only [if_true] at ht
  simp only [Bool.false_eq_true, if_false] at hf
  refine ⟨ht, hf, fun optimised => ?_, fun i => ?_, fun i => ?_⟩
  · rw [hp, List.length_map]
  · rw [ht, List.getElem?_map]
  · rw [hf, List.getElem?_map]

/-- Two relations with partial lengths 3 and 6, folded over 2 instances: the
unoptimised container has the types numbered 6 and 12, the optimised one the
types numbered 7 and 13. -/
theorem create_protogalaxy_container_per_relation_sample :
    create_protogalaxy_tuple_of_tuples_of_univariates
      [sample_relation 3 4 [3, 2], sample_relation 6 7 [6]] 2 false 0 = [6, 12]
    ∧ create_protogalaxy_tuple_of_tuples_of_univariates
      [sample_relation 3 4 [3, 2], sample_relation 6 7 [6]] 2 true 0 = [7, 13] := by
  have h := create_protogalaxy_container_per_relation
    [sample_relation 3 4 [3, 2], sample_relation 6 7 [6]] 2
  exact ⟨h.2.1.trans rfl, h.1.trans rfl⟩

/-! ## Proving key: members without an initialiser -/

/-- Claim C19, evaluated: the constructor `ProvingKey_(circuit_size,
num_public_inputs)` assigns neither `contains_recursive_proof` nor
`recursive_proof_public_input_indices`, and the class gives them no default
member initialiser, so the constructed key holds whatever these members held
before; constructed over storage that holds `true` and a non-zero table,
`ProvingKey_(1024, 3)` has `contains_recursive_proof = true` and a non-zero
table.  The members `pub_inputs_offset` and `public_inputs` are 0 and empty. -/
theorem ProvingKey_construct_keeps_indeterminate_members :
    (∀ (env : KeyEnv Nat (Nat × Nat)) (mem : Indeterminate)
        (circuit_size num_public_inputs : Nat),
        (ProvingKey_.construct env mem circuit_size num_public_inputs :
            ProvingKey_ Nat Nat (Nat × Nat)).contains_recursive_proof
          = mem.contains_recursive_proof
        ∧ (ProvingKey_.construct env mem circuit_size num_public_inputs :
            ProvingKey_ Nat Nat (Nat × Nat)).recursive_proof_public_input_indices
          = mem.recursive_proof_public_input_indices
        ∧ (ProvingKey_.construct env mem circuit_size num_public_inputs :
            ProvingKey_ Nat Nat (Nat × Nat)).pub_inputs_offset = 0
        ∧ (ProvingKey_.construct env mem circuit_size num_public_inputs :
            ProvingKey_ Nat Nat (Nat × Nat)).public_inputs = [])
    ∧ (ProvingKey_.construct sample_key_env
        ⟨true, [1, 2, 3, 4, 5, 6, 7, 8, 9, 10, 11, 12, 13, 14, 15, 16]⟩ 1024 3 :
        ProvingKey_ Nat Nat (Nat × Nat)).contains_recursive_proof = true
    ∧ (ProvingKey_.construct sample_key_env
        ⟨true, [1, 2, 3, 4, 5, 6, 7, 8, 9, 10, 11, 12, 13, 14, 15, 16]⟩ 1024 3 :
        ProvingKey_ Nat Nat (Nat × Nat)).recursive_proof_public_input_indices
      = [1, 2, 3, 4, 5, 6, 7, 8, 9, 10, 11, 12, 13, 14, 15, 16] :=
  ⟨fun _ _ _ _ => ⟨rfl, rfl, rfl, rfl⟩, rfl, rfl⟩

/-! ## Capability classification: relations between the predicates -/

/-- Claim C21: `IsHonkFlavor` and `IsUltraFlavor` are the same predicate: they
hold for the same types, exactly `UltraFlavor`, `UltraKeccakFlavor` and
`MegaFlavor`; and `IsUltraPlonkOrHonk` holds for a type exactly when
`IsUltraPlonkFlavor` or `IsUltraFlavor` holds for it. -/
theorem IsHonkFlavor_iff_IsUltraFlavor (T : FlavorType) :
    (IsHonkFlavor T = true ↔ IsUltraFlavor T = true)
    ∧ IsHonkFlavor T = IsUltraFlavor T
    ∧ (IsHonkFlavor T = true
        ↔ T = FlavorType.UltraFlavor ∨ T = FlavorType.UltraKeccakFlavor
          ∨ T = FlavorType.MegaFlavor)
    ∧ (IsUltraFlavor T = true
        ↔ T = FlavorType.UltraFlavor ∨ T = FlavorType.UltraKeccakFlavor
          ∨ T = FlavorType.MegaFlavor)
    ∧ (IsUltraPlonkOrHonk T = true
        ↔ IsUltraPlonkFlavor T = true ∨ IsUltraFlavor T = true) := by
  have hhonk : IsHonkFlavor T = true
      ↔ T = FlavorType.UltraFlavor ∨ T = FlavorType.UltraKeccakFlavor
        ∨ T = FlavorType.MegaFlavor := by
    rw [IsHonkFlavor, IsAnyOf_iff_mem]
    simp only [List.mem_cons, List.mem_singleton, List.not_mem_nil, or_false]
  have hultra : IsUltraFlavor T = true
      ↔ T = FlavorType.UltraFlavor ∨ T = FlavorType.UltraKeccakFlavor
        ∨ T = FlavorType.MegaFlavor := by
    rw [IsUltraFlavor, IsAnyOf_iff_mem]
    simp only [List.mem_cons, List.mem_singleton, List.not_mem_nil, or_false]
  have hplonk : IsUltraPlonkFlavor T = true
      ↔ T = FlavorType.plonk_flavor_Ultra ∨ T = FlavorType.UltraKeccakFlavor := by
    rw [IsUltraPlonkFlavor, IsAnyOf_iff_mem]
    simp only [List.mem_cons, List.mem_singleton, List.not_mem_nil, or_false]
  have hboth : IsUltraPlonkOrHonk T = true
      ↔ T = FlavorType.plonk_flavor_Ultra ∨ T = FlavorType.UltraFlavor
        ∨ T = FlavorType.UltraKeccakFlavor ∨ T = FlavorType.MegaFlavor := by
    rw [IsUltraPlonkOrHonk, IsAnyOf_iff_mem]
    simp only [List.mem_cons, List.mem_singleton, List.not_mem_nil, or_false]
  have hsame : IsHonkFlavor T = IsUltraFlavor T := by
    unfold IsHonkFlavor IsUltraFlavor
    rfl
  refine ⟨hhonk.trans hultra.symm, hsame, hhonk, hultra, ?_⟩
  rw [hboth, hplonk, hultra]
  constructor
  · intro h
    rcases h with h | h | h | h
    · exact Or.inl (Or.inl h)
    · exact Or.inr (Or.inl h)
    · exact Or.inl (Or.inr h)
    · exact Or.inr (Or.inr (Or.inr h))
  · intro h
    rcases h with (h | h) | h | h | h
    · exact Or.inl h
    · exact Or.inr (Or.inr (Or.inl h))
    · exact Or.inr (Or.inl h)
    · exact Or.inr (Or.inr (Or.inl h))
    · exact Or.inr (Or.inr (Or.inr h))

/-- The predicates `IsHonkFlavor` and `IsUltraFlavor` both hold for
`MegaFlavor` and both fail for `bb::plonk::flavor::Ultra`, for which
`IsUltraPlonkOrHonk` holds through `IsUltraPlonkFlavor`. -/
theorem IsHonkFlavor_iff_IsUltraFlavor_sample :
    IsHonkFlavor FlavorType.MegaFlavor = true
    ∧ IsUltraFlavor FlavorType.MegaFlavor = true
    ∧ IsHonkFlavor FlavorType.plonk_flavor_Ultra = false
    ∧ IsUltraFlavor FlavorType.plonk_flavor_Ultra = false
    ∧ IsUltraPlonkFlavor FlavorType.plonk_flavor_Ultra = true
    ∧ IsUltraPlonkOrHonk FlavorType.plonk_flavor_Ultra = true :=
  ⟨by decide, ((IsHonkFlavor_iff_IsUltraFlavor FlavorType.MegaFlavor).1).mp (by decide),
    by decide, by decide, by decide,
    ((IsHonkFlavor_iff_IsUltraFlavor FlavorType.plonk_flavor_Ultra).2.2.2.2).mpr
      (Or.inl (by decide))⟩

/-! ## Verification key: layout of the serialisation -/

/-- In the concatenation of lists of length `c`, the `j`-th list occupies the
`c` positions from `c * j` on. -/
theorem flatten_drop_take {α : Type} (c : Nat) (L : List (List α)) :
    (∀ l ∈ L, l.length = c) → ∀ (j : Nat) (hj : j < L.length),
      (L.flatten.drop (c * j)).take c = L.get ⟨j, hj⟩ := by
  induction L with
  | nil => intro _ j hj; exact absurd hj (Nat.not_lt_zero j)
  | cons l rest ih =>
    intro hlen j hj
    have hl : l.length = c := hlen l (List.mem_cons_self _ _)
    cases j with
    | zero =>
      rw [List.flatten_cons, Nat.mul_zero, List.drop_zero]
      exact List.take_left' hl
    | succ j =>
      have hmul : c * (j + 1) = l.length + c * j := by rw [hl, Nat.mul_succ, Nat.add_comm]
      rw [List.flatten_cons, hmul, List.drop_append]
      exact ih (fun x hx => hlen x (List.mem_cons_of_mem _ hx)) j (Nat.lt_of_succ_lt_succ hj)

/-- The concatenation of `m` lists of length `c` has `c * m` elements. -/
theorem length_flatten_of_fixed_length {α : Type} (c : Nat) (L : List (List α)) :
    (∀ l ∈ L, l.length = c) → L.flatten.length = c * L.length := by
  induction L with
  | nil => intro _; rfl
  | cons l rest ih =>
    intro hlen
    rw [List.flatten_cons, List.length_append, hlen l (List.mem_cons_self _ _),
      ih (fun x hx => hlen x (List.mem_cons_of_mem _ hx)), List.length_cons, Nat.mul_succ,
      Nat.add_comm]

/-- Claim C22: when `convert_to_bn254_frs` yields one field element per integer
or boolean scalar, one per entry of the index table (`t` entries) and `c` field
elements per commitment, `to_field_elements()` of a key with `m` commitments
has exactly `4 + t + c * m` elements, and the encoding of the commitment at
index `j` occupies the `c` positions from `4 + t + c * j` on; the length is the
same for every key with as many table entries and as many commitments,
whatever the stored values. -/
theorem to_field_elements_layout {FF Commitment VCK : Type}
    (convert : convert_to_bn254_frs FF Commitment) (c : Nat)
    (vk vk2 : VerificationKey_ Commitment VCK)
    (hscalar : ∀ v, (convert.uint64 v).length = 1)
    (hbool : ∀ b, (convert.bool b).length = 1)
    (hindices : ∀ table, (convert.indices table).length = table.length)
    (hcommitment : ∀ x, (convert.commitment x).length = c) :
    (vk.to_field_elements convert).length
      = 4 + vk.recursive_proof_public_input_indices.length + c * vk.get_all.length
    ∧ (∀ (j : Nat) (hj : j < vk.get_all.length),
        ((vk.to_field_elements convert).drop
            (4 + vk.recursive_proof_public_input_indices.length + c * j)).take c
          = convert.commitment (vk.get_all.get ⟨j, hj⟩))
    ∧ (vk.recursive_proof_public_input_indices.length
          = vk2.recursive_proof_public_input_indices.length →
        vk.get_all.length = vk2.get_all.length →
        (vk.to_field_elements convert).length = (vk2.to_field_elements convert).length) := by
  have hfixed : ∀ (k : VerificationKey_ Commitment VCK),
      ∀ l ∈ k.get_all.map convert.commitment, l.length = c := by
    intro k l hl
    obtain ⟨x, _, hx⟩ := List.mem_map.mp hl
    rw [← hx]
    exact hcommitment x
  have hmeta : ∀ (k : VerificationKey_ Commitment VCK),
      (convert.uint64 k.circuit_size
          ++ convert.uint64 k.num_public_inputs
          ++ convert.uint64 k.pub_inputs_offset
          ++ convert.bool k.contains_recursive_proof
          ++ convert.indices k.recursive_proof_public_input_indices).length
        = 4 + k.recursive_proof_public_input_indices.length := by
    intro k
    simp only [List.length_append, hscalar, hbool, hindices]
  have hlength : ∀ (k : VerificationKey_ Commitment VCK),
      (k.to_field_elements convert).length
        = 4 + k.recursive_proof_public_input_indices.length + c * k.get_all.length := by
    intro k
    rw [to_field_elements_split, List.length_append, hmeta,
      length_flatten_of_fixed_length c _ (hfixed k), List.length_map]
  refine ⟨hlength vk, fun j hj => ?_, fun ht hm => ?_⟩
  · have hj2 : j < (vk.get_all.map convert.commitment).length := by
      rw [List.length_map]; exact hj
    rw [to_field_elements_split, ← hmeta vk, List.drop_append,
      flatten_drop_take c _ (hfixed vk) j hj2]
    simp only [List.get_eq_getElem, List.getElem_map]
  · rw [hlength vk, hlength vk2, ht, hm]

/-- The key `byte_vk` has a table of 2 entries and 3 commitments of 2 field
elements: its serialisation has `4 + 2 + 2 * 3 = 12` elements, and the second
commitment `(5, 6)` occupies positions 8 and 9. -/
theorem to_field_elements_layout_sample :
    (byte_vk.to_field_elements byte_convert).length = 12
    ∧ ((byte_vk.to_field_elements byte_convert).drop 8).take 2 = [5, 6]
    ∧ (byte_vk.to_field_elements byte_convert).length
        = (byte_vk_changed.to_field_elements byte_convert).length := by
  have h := to_field_elements_layout byte_convert 2 byte_vk byte_vk_changed
    (fun _ => rfl) (fun _ => rfl) (fun table => List.length_map table _) (fun _ => rfl)
  exact ⟨h.1, h.2.1 1 (by decide), h.2.2 rfl rfl⟩

end bb
